import Mathlib

/-!
Verification of the go-netdef rendering engine: a shallow embedding of the
repository's Go code (netdefine.go and the parsing helpers) in Lean 4,
together with theorems settling the frozen claims about it.

Modelling conventions:
* Go strings are modelled as Lean `String`s and scanned through their
  character lists; all inputs the claims exercise are ASCII, where Go's
  byte-wise scanning and Lean's char-wise scanning agree.
* Go machine integers are modelled as `Nat`/`Int` with explicit reduction
  modulo 2^64 where Go's `uint`/`uint64` arithmetic can wrap.
* Fallible Go calls returning `(value, error)` are modelled as pairs
  `value × Option String` (the error message, `none` for nil).
* The external capability surface (`callBin` shelling out to `ip`/`ovs-vsctl`,
  `ctrlnet.SetLink`, and the three live-inventory scans) is modelled by an
  oracle: a list of prearranged responses (`Ext`) consumed in order, plus a
  log (`CapCall`) of every call issued, so "zero capability calls" and
  "invokes the shaping operation on interface X" are observable.
* A Go panic (out-of-range slice index, nil dereference) is modelled as a
  distinguished result (`none` address / `CreateRes.panicked`).
* Go map iteration order is unspecified; maps are modelled as association
  lists in insertion order.  No claim depends on the order of iteration of
  a map with more than one relevant entry.
-/

namespace Netdef

/-- Value of a list of decimal digit characters, most significant first. -/
def digitsVal (ds : List Char) : Nat :=
  ds.foldl (fun a c => a * 10 + (c.toNat - 48)) 0

/-- 2^64, the modulus of Go's `uint`/`uint64` arithmetic on 64-bit hosts. -/
def U64 : Nat := 18446744073709551616

/-- Go `strconv.ParseUint(s, 10, 64)`: nonempty, all decimal digits, and the
value must fit in an unsigned 64-bit integer; anything else is an error
(`none`). -/
def parseUint64 (ds : List Char) : Option Nat :=
  if ds = [] ∨ ¬ ds.all Char.isDigit then none
  else
    let v := digitsVal ds
    if v < U64 then some v else none

/-- Strip `pfx` from the front of `cs`: `some` of the remainder when `pfx` is
a prefix (Go `strings.HasPrefix` plus the slice `name[len(prefix):]`). -/
def stripPfx : List Char → List Char → Option (List Char)
  | [], rest => some rest
  | _ :: _, [] => none
  | a :: as, b :: bs => if a = b then stripPfx as bs else none

/-- One step of `freshName`'s loop over the existing names: Go tracks
`found` and the running maximum numeric suffix (skipping suffixes
`strconv.ParseUint` rejects). -/
def freshStep (pfx : List Char) (acc : Bool × Nat) (name : String) : Bool × Nat :=
  match stripPfx pfx name.data with
  | none => acc
  | some suffix =>
    match parseUint64 suffix with
    | none => (true, acc.2)
    | some num => (true, if acc.2 < num then num else acc.2)

/-- Go `freshName(prefix, existing)`: `<prefix><n>` where n is one more than
the largest numeric suffix among existing names sharing the prefix (the
increment wraps at 2^64 like Go's `uint64`), or 0 when none shares it. -/
def freshName (pfx : String) (existing : List String) : String :=
  let st := existing.foldl (freshStep pfx.data) (false, 0)
  let mx := if st.1 then (st.2 + 1) % U64 else st.2
  pfx ++ toString mx

/-- Whether a taken name shares the prefix (spec-side notion for claim C5). -/
def sharesPfx (pfx : String) (name : String) : Bool :=
  (stripPfx pfx.data name.data).isSome

/-- The numeric suffixes (fitting in unsigned 64 bits) of the taken names
sharing the prefix (spec-side notion for claim C5). -/
def numericSuffixes (pfx : String) (existing : List String) : List Nat :=
  existing.filterMap (fun name => (stripPfx pfx.data name.data).bind parseUint64)

/-- The number the claim says the allocator appends: 1 plus the maximum
numeric suffix (wrapping at 2^64) when some taken name shares the prefix,
0 otherwise. -/
def claimFreshNat (pfx : String) (existing : List String) : Nat :=
  if existing.any (sharesPfx pfx) then
    ((numericSuffixes pfx existing).foldl max 0 + 1) % U64
  else 0

/-- Go `strconv.Atoi`: optional single sign, then decimal digits; values
outside the signed 64-bit range are a "value out of range" error (Go also
returns the clamped value alongside that error). Result is
`(value, error message or none)`. -/
def goAtoi (s : String) : Int × Option String :=
  let cs := s.data
  let (neg, ds) :=
    match cs with
    | c :: rest =>
      if c = '-' then (true, rest)
      else if c = '+' then (false, rest)
      else (false, cs)
    | [] => (false, cs)
  if ds = [] ∨ ¬ ds.all Char.isDigit then
    (0, some ("strconv.Atoi: parsing \"" ++ s ++ "\": invalid syntax"))
  else
    let v := digitsVal ds
    if neg then
      if v ≤ 9223372036854775808 then (-(v : Int), none)
      else (-(9223372036854775808 : Int),
        some ("strconv.Atoi: parsing \"" ++ s ++ "\": value out of range"))
    else
      if v ≤ 9223372036854775807 then ((v : Int), none)
      else ((9223372036854775807 : Int),
        some ("strconv.Atoi: parsing \"" ++ s ++ "\": value out of range"))

/-- Go's conversion `uint(i)` of a signed 64-bit value: reduce modulo 2^64. -/
def toUint64 (i : Int) : Nat := (i % (18446744073709551616 : Int)).toNat

/-- The `prefixes` map of part_000: metric prefix letter to power-of-1024
multiplier. -/
def prefixMul (c : Char) : Option Nat :=
  match c with
  | 'k' => some 1024
  | 'm' => some (1024 * 1024)
  | 'g' => some (1024 * 1024 * 1024)
  | 't' => some (1024 * 1024 * 1024 * 1024)
  | _ => none

/-- The part of Go `ParseHumanLinkRate` after the "bit" suffix has been
stripped, working on the reversed remainder: read the optional metric prefix
letter off the end, `Atoi` the magnitude, and multiply in Go `uint`
arithmetic (modulo 2^64). -/
def parseRateNum (revRest : List Char) : Nat × Option String :=
  match revRest with
  | [] => (0, some "invalid rate limit string")
  | c :: revRest2 =>
    let pick : (Nat × List Char) × Option String :=
      if c.isDigit then ((1, revRest), none)
      else
        match prefixMul c with
        | some m => ((m, revRest2), none)
        | none => ((1, revRest), some ("invalid metric prefix: " ++ String.mk [c]))
    match pick with
    | (_, some e) => (0, some e)
    | ((mul, revNum), none) =>
      match goAtoi (String.mk revNum.reverse) with
      | (_, some e) => (0, some e)
      | (val, none) => ((toUint64 val * mul) % U64, none)

/-- Go `ParseHumanLinkRate`: empty means 0; otherwise a decimal magnitude,
an optional metric prefix letter, and the mandatory suffix "bit". -/
def ParseHumanLinkRate (s : String) : Nat × Option String :=
  if s.data = [] then (0, none)
  else if s.data.length < 4 then (0, some "invalid rate limit string")
  else
    match s.data.reverse with
    | 't' :: 'i' :: 'b' :: revRest => parseRateNum revRest
    | _ => (0, some "link rate string must end in 'bit'")

/-- The part of Go `ParsePercentage` after the "%" suffix has been stripped
(argument is the reversed remainder): `Atoi`, then the `uint` conversion. -/
def parsePercentNum (revRest : List Char) : Nat × Option String :=
  match goAtoi (String.mk revRest.reverse) with
  | (_, some e) => (0, some e)
  | (v, none) => (toUint64 v, none)

/-- Go `ParsePercentage`: empty means 0; otherwise a decimal integer with the
mandatory suffix "%", converted by `uint(v)` (modulo 2^64). -/
def ParsePercentage (s : String) : Nat × Option String :=
  if s.data = [] then (0, none)
  else
    match s.data.reverse with
    | '%' :: revRest => parsePercentNum revRest
    | _ => (0, some "percentage strings must end in %")

/-- Lookup in an association list modelling a Go map (first binding wins;
the code never creates duplicate keys). -/
def lookupKey {α : Type} : List (String × α) → String → Option α
  | [], _ => none
  | (k, v) :: rest, key => if key = k then some v else lookupKey rest key

/-- Go map read with the zero value as default (`m[k]` on a missing key). -/
def lookupKeyD {α : Type} (m : List (String × α)) (k : String) (d : α) : α :=
  (lookupKey m k).getD d

/-- Go map write `m[k] = v`: replace the binding in place or append it. -/
def mapInsert {α : Type} (m : List (String × α)) (k : String) (v : α) :
    List (String × α) :=
  if (lookupKey m k).isSome then
    m.map (fun kv => if kv.1 = k then (k, v) else kv)
  else m ++ [(k, v)]

/-- Go map `delete(m, k)`. -/
def mapRemove {α : Type} (m : List (String × α)) (k : String) : List (String × α) :=
  m.filter (fun kv => kv.1 ≠ k)

/-- Go set insert `m[x] = struct{}{}` on a `map[string]struct{}`. -/
def setInsert (s : List String) (x : String) : List String :=
  if x ∈ s then s else s ++ [x]

/-- Go set delete on a `map[string]struct{}`. -/
def setRemove (s : List String) (x : String) : List String :=
  s.filter (fun y => y ≠ x)

/-- Split a character list at every occurrence of `c` (used for '.' and '/'
in the address parsers). -/
def splitOnChar (c : Char) : List Char → List (List Char)
  | [] => [[]]
  | x :: rest =>
    match splitOnChar c rest with
    | [] => if x = c then [[], []] else [[x]]
    | g :: gs => if x = c then [] :: g :: gs else (x :: g) :: gs

/-- One dotted-quad field as Go's ParseIP reads it: decimal digits, value at
most 255, no leading zero (Go 1.17+ rejects leading zeros). -/
def parseByteField (cs : List Char) : Option Nat :=
  if cs = [] ∨ ¬ cs.all Char.isDigit then none
  else if cs.length > 1 ∧ cs.head? = some '0' then none
  else
    let v := digitsVal cs
    if v ≤ 255 then some v else none

/-- The IPv4 dotted-quad case of Go `net.ParseIP`, as the 32-bit value.
IPv6 textual forms are not modelled (no claim involves them); for them this
parser answers `none` where Go would succeed. -/
def parseIPv4 (s : String) : Option Nat :=
  match splitOnChar '.' s.data with
  | [a, b, c, d] =>
    match parseByteField a, parseByteField b, parseByteField c, parseByteField d with
    | some va, some vb, some vc, some vd =>
      some (((va * 256 + vb) * 256 + vc) * 256 + vd)
    | _, _, _, _ => none
  | _ => none

/-- The four bytes of a 32-bit value, most significant first. -/
def bytes4 (v : Nat) : List Nat :=
  [v / 16777216 % 256, v / 65536 % 256, v / 256 % 256, v % 256]

/-- Go `net.IPMask(net.ParseIP(mask))` restricted to dotted-quad masks; the
16-byte v4-in-v6 form Go produces is represented by its last 4 bytes, which
is all `IPNet.String` consumes (`networkNumberAndMask` slices `m[12:]`). -/
def parseIPMask (s : String) : Option (List Nat) :=
  (parseIPv4 s).map bytes4

/-- Go `net.ParseCIDR` for IPv4: returns the masked network base address
(as a 32-bit value) and the prefix length. -/
def parseCIDR (s : String) : Option (Nat × Nat) :=
  match splitOnChar '/' s.data with
  | [addr, maskp] =>
    match parseIPv4 (String.mk addr) with
    | none => none
    | some ipv =>
      if maskp = [] ∨ ¬ maskp.all Char.isDigit then none
      else if maskp.length > 1 ∧ maskp.head? = some '0' then none
      else
        let ones := digitsVal maskp
        if ones ≤ 32 then
          some (ipv / 2 ^ (32 - ones) * 2 ^ (32 - ones), ones)
        else none
  | _ => none

/-- The four bytes of Go `net.CIDRMask(ones, 32)`. -/
def cidrMaskBytes (ones : Nat) : List Nat :=
  bytes4 (4294967296 - 2 ^ (32 - ones))

/-- Minimal big-endian byte representation, Go `big.Int.Bytes()` (empty for
zero).  Written with explicit fuel so the kernel can evaluate it. -/
def natBytesAux (fuel v : Nat) : List Nat :=
  match fuel with
  | 0 => []
  | fuel + 1 => if v = 0 then [] else natBytesAux fuel (v / 256) ++ [v % 256]

/-- Minimal big-endian bytes of `v` (`big.Int.Bytes()`). -/
def natBytes (v : Nat) : List Nat := natBytesAux v v

/-- Go `simpleMaskLength`: the prefix length of a canonical mask (ones then
zeros), `none` where Go returns -1. -/
def partialOnes : Nat → Option Nat
  | 0 => some 0
  | 128 => some 1
  | 192 => some 2
  | 224 => some 3
  | 240 => some 4
  | 248 => some 5
  | 252 => some 6
  | 254 => some 7
  | _ => none

/-- Go `simpleMaskLength` over mask bytes. -/
def simpleMaskLength : List Nat → Option Nat
  | [] => some 0
  | 255 :: rest => (simpleMaskLength rest).map (fun k => k + 8)
  | b :: rest =>
    match partialOnes b with
    | none => none
    | some k => if rest.all (fun x => x = 0) then some k else none

/-- Lowercase hexadecimal digit. -/
def hexChar (n : Nat) : Char :=
  if n < 10 then Char.ofNat (48 + n) else Char.ofNat (87 + n)

/-- Go `IPMask.String()`: the mask bytes in lowercase hex, no separators. -/
def hexBytes (bs : List Nat) : String :=
  String.mk (bs.foldr (fun b acc => hexChar (b / 16) :: hexChar (b % 16) :: acc) [])

/-- Dotted-quad rendering of IP bytes (Go `IP.String()` for a 4-byte IP). -/
def dottedBytes (bs : List Nat) : String :=
  String.intercalate "." (bs.map (fun b => toString b))

/-- The "/..." part of Go `IPNet.String()`: the prefix length when the mask
is canonical, otherwise the mask in hex. -/
def maskSuffix (m : List Nat) : String :=
  match simpleMaskLength m with
  | some k => toString k
  | none => hexBytes m

/-- Go `IPNet.String()` for a 4-byte IP and 4-byte mask (after
`networkNumberAndMask` has reduced a 16-byte mask to its last 4 bytes). -/
def ipnetString (ip4 : List Nat) (m : List Nat) : String :=
  dottedBytes ip4 ++ "/" ++ maskSuffix m

/-- The mask precedence the spec states for claim C6: the caller-supplied
override mask when it parses, else the subnet's configured default mask when
it parses, else the subnet's declared CIDR mask. -/
def chooseMask (override bindMask : String) (ones : Nat) : List Nat :=
  match parseIPMask override with
  | some bs => bs
  | none =>
    match parseIPMask bindMask with
    | some bs => bs
    | none => cidrMaskBytes ones

/-- One segment of a Go duration string: digits, optional fraction, unit.
Returns the accumulated nanoseconds.  Modelled subset of `time.ParseDuration`
(signs and the µs spelling are not modelled; no claim depends on duration
values, only on the success/failure shape of `LinkOpts.Parse`). -/
def durUnit : List Char → Option (Nat × List Char)
  | 'n' :: 's' :: rest => some (1, rest)
  | 'u' :: 's' :: rest => some (1000, rest)
  | 'm' :: 's' :: rest => some (1000000, rest)
  | 's' :: rest => some (1000000000, rest)
  | 'm' :: rest => some (60000000000, rest)
  | 'h' :: rest => some (3600000000000, rest)
  | _ => none

/-- Parse the remaining duration segments, with fuel for termination. -/
def parseDurSegs (fuel : Nat) (cs : List Char) (acc : Nat) : Option Nat :=
  match fuel with
  | 0 => none
  | fuel + 1 =>
    match cs with
    | [] => some acc
    | _ =>
      let ds := cs.takeWhile Char.isDigit
      let rest1 := cs.dropWhile Char.isDigit
      if ds = [] then none
      else
        let (fs, rest2) :=
          match rest1 with
          | '.' :: tl => (tl.takeWhile Char.isDigit, tl.dropWhile Char.isDigit)
          | _ => ([], rest1)
        match durUnit rest2 with
        | none => none
        | some (unit, rest3) =>
          let v := digitsVal ds * unit + digitsVal fs * unit / 10 ^ fs.length
          parseDurSegs fuel rest3 (acc + v)

/-- Modelled Go `time.ParseDuration` returning nanoseconds. -/
def parseGoDuration (s : String) : Nat × Option String :=
  if s.data = ['0'] then (0, none)
  else
    match parseDurSegs (s.data.length + 1) s.data 0 with
    | some v => (v, none)
    | none => (0, some ("time: invalid duration " ++ s))

/-- The `ctrlnet.LinkSettings` structure: Latency and Jitter in milliseconds
(Go `uint`), Bandwidth in bits per second (Go `uint`), PacketLoss as a Go
`uint8`. -/
structure LinkSettings where
  Latency : Nat
  Jitter : Nat
  Bandwidth : Nat
  PacketLoss : Nat
deriving DecidableEq

/-- The all-zero `new(ctrlnet.LinkSettings)`. -/
def LinkSettings.zero : LinkSettings := ⟨0, 0, 0, 0⟩

/-- Go `LinkOpts`: four human-readable strings and the cached parsed
descriptor (`lset`, nil until `Parse` runs). -/
structure LinkOpts where
  Latency : String
  Jitter : String
  Bandwidth : String
  PacketLoss : String
  lset : Option LinkSettings
deriving DecidableEq

/-- Go `LinkOpts.Parse`: allocates the settings first (so a failed parse
leaves a partially-filled, non-nil `lset`, as the Go pointer mutation does),
then fills latency, jitter, bandwidth and packet loss in order, stopping at
the first error. -/
def LinkOpts.Parse (lo : LinkOpts) : LinkOpts × Option String :=
  let s0 := LinkSettings.zero
  match (if lo.Latency = "" then (0, none) else parseGoDuration lo.Latency) with
  | (_, some e) => ({ lo with lset := some s0 }, some e)
  | (latNs, none) =>
    let s1 := { s0 with Latency := latNs / 1000000 }
    match (if lo.Jitter = "" then (0, none) else parseGoDuration lo.Jitter) with
    | (_, some e) => ({ lo with lset := some s1 }, some e)
    | (jitNs, none) =>
      let s2 := { s1 with Jitter := jitNs / 1000000 }
      match ParseHumanLinkRate lo.Bandwidth with
      | (_, some e) => ({ lo with lset := some s2 }, some e)
      | (bw, none) =>
        let s3 := { s2 with Bandwidth := bw }
        match ParsePercentage lo.PacketLoss with
        | (_, some e) => ({ lo with lset := some s3 }, some e)
        | (pl, none) =>
          ({ lo with lset := some { s3 with PacketLoss := pl % 256 } }, none)

/-- An oracle response for one external interaction: a successful or failed
command (`ok`/`fail`) or a successful or failed inventory scan
(`scan`/`scanFail`).  `scan []` also models `freshNamespaceName`'s missing
/var/run/netns directory, which Go treats as an empty inventory. -/
inductive Ext where
  | ok : Ext
  | fail : String → Ext
  | scan : List String → Ext
  | scanFail : String → Ext
deriving DecidableEq

/-- A capability call as logged: an external binary invocation with its
arguments, a `ctrlnet.SetLink`, or one of the three inventory queries. -/
inductive CapCall where
  | bin : List String → CapCall
  | setLink : String → LinkSettings → CapCall
  | scanInterfaces : CapCall
  | scanVeths : CapCall
  | scanNamespaces : CapCall
deriving DecidableEq

/-- The external world threaded through the interpreter: the remaining
oracle responses and the log of capability calls issued so far. -/
structure Wst where
  env : List Ext
  log : List CapCall
deriving DecidableEq

/-- Go `callBin(args...)`: consumes the next oracle response and logs the
call; `none` is a nil error. -/
def callBin (args : List String) (w : Wst) : Option String × Wst :=
  match w.env with
  | Ext.ok :: rest => (none, ⟨rest, w.log ++ [CapCall.bin args]⟩)
  | Ext.fail m :: rest => (some m, ⟨rest, w.log ++ [CapCall.bin args]⟩)
  | _ :: rest => (some "unexpected external response", ⟨rest, w.log ++ [CapCall.bin args]⟩)
  | [] => (some "no external response", ⟨[], w.log ++ [CapCall.bin args]⟩)

/-- An inventory query (`net.Interfaces`, `ip link show type veth`, or the
/var/run/netns directory listing): consumes the next oracle response and
logs the query. -/
def scanQuery (q : CapCall) (w : Wst) : Except String (List String) × Wst :=
  match w.env with
  | Ext.scan names :: rest => (Except.ok names, ⟨rest, w.log ++ [q]⟩)
  | Ext.scanFail m :: rest => (Except.error m, ⟨rest, w.log ++ [q]⟩)
  | _ :: rest => (Except.error "unexpected external response", ⟨rest, w.log ++ [q]⟩)
  | [] => (Except.error "no external response", ⟨[], w.log ++ [q]⟩)

/-- The external `ctrlnet.SetLink(iface, settings)` shaping call. -/
def ctrlnetSetLink (iface : String) (ls : LinkSettings) (w : Wst) :
    Option String × Wst :=
  match w.env with
  | Ext.ok :: rest => (none, ⟨rest, w.log ++ [CapCall.setLink iface ls]⟩)
  | Ext.fail m :: rest => (some m, ⟨rest, w.log ++ [CapCall.setLink iface ls]⟩)
  | _ :: rest => (some "unexpected external response", ⟨rest, w.log ++ [CapCall.setLink iface ls]⟩)
  | [] => (some "no external response", ⟨[], w.log ++ [CapCall.setLink iface ls]⟩)

/-- Go `LinkOpts.Apply`: a no-op when all four strings are unset; an
internal-state error when the descriptor was never computed; otherwise the
external shaping call on the named interface. -/
def LinkOpts.Apply (lo : LinkOpts) (iface : String) (w : Wst) : Option String × Wst :=
  if lo.Bandwidth = "" ∧ lo.PacketLoss = "" ∧ lo.Jitter = "" ∧ lo.Latency = "" then
    (none, w)
  else
    match lo.lset with
    | none => (some ("linkopts has not been parsed for iface " ++ iface), w)
    | some ls => ctrlnetSetLink iface ls w

/-- Go `freshInterfaceName(prefix)`: scan the host interfaces, then pick a
fresh name. -/
def freshInterfaceName (pfx : String) (w : Wst) : Except String String × Wst :=
  match scanQuery CapCall.scanInterfaces w with
  | (Except.error e, w') => (Except.error e, w')
  | (Except.ok names, w') => (Except.ok (freshName pfx names), w')

/-- Go `freshVethName(prefix)`: scan the veth interfaces, then pick a fresh
name. -/
def freshVethName (pfx : String) (w : Wst) : Except String String × Wst :=
  match scanQuery CapCall.scanVeths w with
  | (Except.error e, w') => (Except.error e, w')
  | (Except.ok names, w') => (Except.ok (freshName pfx names), w')

/-- Go `freshNamespaceName(prefix)`: list /var/run/netns (a missing
directory is an empty inventory, modelled by the oracle answering
`scan []`), then pick a fresh name. -/
def freshNamespaceName (pfx : String) (w : Wst) : Except String String × Wst :=
  match scanQuery CapCall.scanNamespaces w with
  | (Except.error e, w') => (Except.error e, w')
  | (Except.ok names, w') => (Except.ok (freshName pfx names), w')

/-- Go `Network`: a subnet description.  `ipnet` models the private
`*net.IPNet` (nil until `Create` parses `IpRange`) as the masked base
address and prefix length; `nextIp` is the private allocation counter. -/
structure Network where
  Name : String
  IpRange : String
  Links : List (String × Option LinkOpts)
  BindMask : String
  ipnet : Option (Nat × Nat)
  nextIp : Nat
deriving DecidableEq

/-- Body of Go `Network.GetNextIp(mask)` once `n.ipnet` is known: increment
the offset counter, add it to the base address as a big integer, index the
first four bytes of the minimal byte representation (out of range is a
panic, modelled as `none`), and render with the mask chosen by the nil
checks `net.IPMask(net.ParseIP(...))`. -/
def getNextIpCore (n : Network) (base ones : Nat) (mask : String) :
    Network × Option String :=
  if (natBytes (base + (n.nextIp + 1))).length < 4 then
    ({ n with nextIp := n.nextIp + 1 }, none)
  else
    ({ n with nextIp := n.nextIp + 1 },
      some (ipnetString ((natBytes (base + (n.nextIp + 1))).take 4)
        (match parseIPMask mask with
         | some bs => bs
         | none =>
           match parseIPMask n.BindMask with
           | some bs => bs
           | none => cidrMaskBytes ones)))

/-- Go `Network.GetNextIp(mask)`.  The Go function can only exit by
returning an address with a nil error or by panicking; the result is
`some address`, with `none` standing for the panic (the out-of-range index
into `big.Int.Bytes()`, or the nil `ipnet` dereference). -/
def Network.GetNextIp (n : Network) (mask : String) : Network × Option String :=
  match n.ipnet with
  | none => (n, none)
  | some (base, ones) => getNextIpCore n base ones mask

/-- Go `Peer`: a peer description. -/
structure Peer where
  Name : String
  Links : List (String × Option LinkOpts)
  BindMask : String
deriving DecidableEq

/-- Go `Config`: subnets, peers, and the optional naming-prefix overrides. -/
structure Config where
  Networks : List Network
  Peers : List Peer
  Prefixes : List (String × String)
deriving DecidableEq

/-- Go `RenderedNetwork`: the teardown ledger (bridges, peer-name to
namespace-name mapping, global-namespace veths) plus the private subnet and
prefix tables. -/
structure RenderedNetwork where
  Bridges : List String
  Namespaces : List (String × String)
  Interfaces : List String
  subnets : List (String × String)
  prefixes : List (String × String)
deriving DecidableEq

/-- Go `Config.NewRenderedNetwork`: empty ledger with the default prefixes,
overridden by the config's `Prefixes` entries. -/
def Config.NewRenderedNetwork (c : Config) : RenderedNetwork :=
  let r : RenderedNetwork :=
    { Bridges := [], Namespaces := [], Interfaces := [], subnets := [],
      prefixes := [("Bridge", "br"), ("Interface", "veth"), ("Patch", "patch"),
                   ("Port", "tap"), ("Namespace", "ns")] }
  { r with prefixes := c.Prefixes.foldl (fun m kv => mapInsert m kv.1 kv.2) r.prefixes }

/-- Go `RenderedNetwork.freshInterfaceName(typ)`. -/
def RenderedNetwork.freshInterfaceName (r : RenderedNetwork) (typ : String) (w : Wst) :
    Except String String × Wst :=
  Netdef.freshInterfaceName (lookupKeyD r.prefixes typ "") w

/-- Go `RenderedNetwork.freshVethName(typ)`. -/
def RenderedNetwork.freshVethName (r : RenderedNetwork) (typ : String) (w : Wst) :
    Except String String × Wst :=
  Netdef.freshVethName (lookupKeyD r.prefixes typ "") w

/-- Go `RenderedNetwork.freshNetworkName(name)`: picks a fresh bridge name
and records the subnet-name to bridge-name binding. -/
def RenderedNetwork.freshNetworkName (r : RenderedNetwork) (name : String) (w : Wst) :
    (RenderedNetwork × Except String String) × Wst :=
  match r.freshInterfaceName "Bridge" w with
  | (Except.error e, w') => ((r, Except.error e), w')
  | (Except.ok bridgename, w') =>
    (({ r with subnets := mapInsert r.subnets name bridgename }, Except.ok bridgename), w')

/-- Go `RenderedNetwork.CreateNamespace(name)`: picks a fresh namespace
name, runs `ip netns add`, and on success records the configuration-name to
generated-name mapping. -/
def RenderedNetwork.CreateNamespace (r : RenderedNetwork) (name : String) (w : Wst) :
    (RenderedNetwork × Option String) × Wst :=
  match freshNamespaceName (lookupKeyD r.prefixes "Namespace" "") w with
  | (Except.error e, w') => ((r, some e), w')
  | (Except.ok freshname, w') =>
    match callBin ["ip", "netns", "add", freshname] w' with
    | (none, w'') =>
      (({ r with Namespaces := mapInsert r.Namespaces name freshname }, none), w'')
    | (some e, w'') => ((r, some e), w'')

/-- Go `RenderedNetwork.DeleteNamespace(name)`: runs `ip netns del` and on
success deletes the ledger entry keyed `name`. -/
def RenderedNetwork.DeleteNamespace (r : RenderedNetwork) (name : String) (w : Wst) :
    (RenderedNetwork × Option String) × Wst :=
  match callBin ["ip", "netns", "del", name] w with
  | (none, w') => (({ r with Namespaces := mapRemove r.Namespaces name }, none), w')
  | (some e, w') => ((r, some e), w')

/-- Go `RenderedNetwork.CreateBridge(name)`. -/
def RenderedNetwork.CreateBridge (r : RenderedNetwork) (name : String) (w : Wst) :
    (RenderedNetwork × Option String) × Wst :=
  match callBin ["ovs-vsctl", "add-br", name] w with
  | (none, w') => (({ r with Bridges := setInsert r.Bridges name }, none), w')
  | (some e, w') => ((r, some e), w')

/-- Go `RenderedNetwork.DeleteBridge(name)`. -/
def RenderedNetwork.DeleteBridge (r : RenderedNetwork) (name : String) (w : Wst) :
    (RenderedNetwork × Option String) × Wst :=
  match callBin ["ovs-vsctl", "del-br", name] w with
  | (none, w') => (({ r with Bridges := setRemove r.Bridges name }, none), w')
  | (some e, w') => ((r, some e), w')

/-- Go `RenderedNetwork.BridgeAddPort(bridge, ifname)` (no ledger effect). -/
def RenderedNetwork.BridgeAddPort (r : RenderedNetwork) (bridge ifname : String)
    (w : Wst) : Option String × Wst :=
  callBin ["ovs-vsctl", "add-port", bridge, ifname] w

/-- Go `RenderedNetwork.PortSetParameter(port, param, val)`. -/
def RenderedNetwork.PortSetParameter (r : RenderedNetwork) (port param val : String)
    (w : Wst) : Option String × Wst :=
  callBin ["ovs-vsctl", "set", "interface", port, param ++ "=" ++ val] w

/-- Go `RenderedNetwork.PortSetOption(port, option, peer)`. -/
def RenderedNetwork.PortSetOption (r : RenderedNetwork) (port option peer : String)
    (w : Wst) : Option String × Wst :=
  r.PortSetParameter port ("options:" ++ option) peer w

/-- Go `RenderedNetwork.NetNsExec(ns, cmdn, nsargs...)`. -/
def RenderedNetwork.NetNsExec (r : RenderedNetwork) (ns cmdn : String)
    (nsargs : List String) (w : Wst) : Option String × Wst :=
  callBin (["ip", "netns", "exec", ns, cmdn] ++ nsargs) w

/-- Go `RenderedNetwork.SetDev(dev, state)`. -/
def RenderedNetwork.SetDev (r : RenderedNetwork) (dev state : String) (w : Wst) :
    Option String × Wst :=
  callBin ["ip", "link", "set", "dev", dev, state] w

/-- Go `RenderedNetwork.CreateVeth(a)`: on success records the interface. -/
def RenderedNetwork.CreateVeth (r : RenderedNetwork) (a : String) (w : Wst) :
    (RenderedNetwork × Option String) × Wst :=
  match callBin ["ip", "link", "add", a, "type", "veth"] w with
  | (none, w') => (({ r with Interfaces := setInsert r.Interfaces a }, none), w')
  | (some e, w') => ((r, some e), w')

/-- Go `RenderedNetwork.CreateVethPair(a, b)`: on success records both
endpoints. -/
def RenderedNetwork.CreateVethPair (r : RenderedNetwork) (a b : String) (w : Wst) :
    (RenderedNetwork × Option String) × Wst :=
  match callBin ["ip", "link", "add", a, "type", "veth", "peer", "name", b] w with
  | (none, w') =>
    (({ r with Interfaces := setInsert (setInsert r.Interfaces a) b }, none), w')
  | (some e, w') => ((r, some e), w')

/-- Go `RenderedNetwork.DeleteInterface(name)`: on success removes the
entry. -/
def RenderedNetwork.DeleteInterface (r : RenderedNetwork) (name : String) (w : Wst) :
    (RenderedNetwork × Option String) × Wst :=
  match callBin ["ip", "link", "del", name] w with
  | (none, w') => (({ r with Interfaces := setRemove r.Interfaces name }, none), w')
  | (some e, w') => ((r, some e), w')

/-- Go `RenderedNetwork.AssignVethToNamespace(veth, ns)`: on success the
veth leaves the global namespace, so it is removed from the interface set. -/
def RenderedNetwork.AssignVethToNamespace (r : RenderedNetwork) (veth ns : String)
    (w : Wst) : (RenderedNetwork × Option String) × Wst :=
  match callBin ["ip", "link", "set", veth, "netns", ns] w with
  | (none, w') => (({ r with Interfaces := setRemove r.Interfaces veth }, none), w')
  | (some e, w') => ((r, some e), w')

/-- Go `RenderedNetwork.PatchBridges(a, b, l)`: creates two patch ports,
attaches and peers them, and applies the optional link shaping to the first. -/
def RenderedNetwork.PatchBridges (r : RenderedNetwork) (a b : String)
    (l : Option LinkOpts) (w : Wst) : (RenderedNetwork × Option String) × Wst :=
  match r.freshVethName "Port" w with
  | (Except.error e, w1) => ((r, some ("creating fresh port name: " ++ e)), w1)
  | (Except.ok ab, w1) =>
  match r.CreateVeth ab w1 with
  | ((r1, some e), w2) => ((r1, some ("creating port: " ++ e)), w2)
  | ((r1, none), w2) =>
  match r1.freshVethName "Port" w2 with
  | (Except.error e, w3) => ((r1, some ("creating fresh port name: " ++ e)), w3)
  | (Except.ok ba, w3) =>
  match r1.CreateVeth ba w3 with
  | ((r2, some e), w4) => ((r2, some ("creating port: " ++ e)), w4)
  | ((r2, none), w4) =>
  match r2.BridgeAddPort a ab w4 with
  | (some e, w5) => ((r2, some ("adding port: " ++ e)), w5)
  | (none, w5) =>
  match r2.PortSetParameter ab "type" "patch" w5 with
  | (some e, w6) => ((r2, some ("configuring port type: " ++ e)), w6)
  | (none, w6) =>
  match r2.PortSetOption ab "peer" ba w6 with
  | (some e, w7) => ((r2, some ("configuring port options: " ++ e)), w7)
  | (none, w7) =>
  match r2.BridgeAddPort b ba w7 with
  | (some e, w8) => ((r2, some ("adding port: " ++ e)), w8)
  | (none, w8) =>
  match r2.PortSetParameter ba "type" "patch" w8 with
  | (some e, w9) => ((r2, some ("configuring port type: " ++ e)), w9)
  | (none, w9) =>
  match r2.PortSetOption ba "peer" ab w9 with
  | (some e, w10) => ((r2, some ("configuring port options: " ++ e)), w10)
  | (none, w10) =>
  match l with
  | none => ((r2, none), w10)
  | some lo =>
    match lo.Apply ab w10 with
    | (some e, w11) => ((r2, some ("setting patch link options: " ++ e)), w11)
    | (none, w11) => ((r2, none), w11)

/-- Name-check pass of `Config.Create` over the networks: duplicate names
and CIDR parsing, building the `nets` table (association list in insertion
order, standing for the Go map of `*Network` pointers). -/
def buildNets : List Network → List (String × Network) →
    Except String (List (String × Network))
  | [], nets => Except.ok nets
  | n :: rest, nets =>
    if (lookupKey nets n.Name).isSome then
      Except.error ("duplicate network name: " ++ n.Name)
    else
      match parseCIDR n.IpRange with
      | none => Except.error ("invalid CIDR address: " ++ n.IpRange)
      | some bo => buildNets rest (nets ++ [(n.Name, { n with ipnet := some bo })])

/-- Link-check pass of `Config.Create` over one peer's links: each target
must be a known network, and a non-nil `LinkOpts` is parsed (the parsed
descriptor replaces the entry, standing for the Go pointer mutation). -/
def parsePeerLinks (pname : String) (nets : List (String × Network)) :
    List (String × Option LinkOpts) → Except String (List (String × Option LinkOpts))
  | [] => Except.ok []
  | (tgt, l) :: rest =>
    if (lookupKey nets tgt).isNone then
      Except.error ("peer " ++ pname ++ " has link to non-existent network \"" ++ tgt ++ "\"")
    else
      match l with
      | none =>
        match parsePeerLinks pname nets rest with
        | Except.error e => Except.error e
        | Except.ok rest' => Except.ok ((tgt, none) :: rest')
      | some lo =>
        match lo.Parse with
        | (_, some e) => Except.error e
        | (lo', none) =>
          match parsePeerLinks pname nets rest with
          | Except.error e => Except.error e
          | Except.ok rest' => Except.ok ((tgt, some lo') :: rest')

/-- Peer-check pass of `Config.Create`: duplicate peer names (checked before
the peer's links, as in the source), then the links. -/
def checkPeers (nets : List (String × Network)) :
    List Peer → List String → Except String (List Peer)
  | [], _ => Except.ok []
  | p :: rest, seen =>
    if p.Name ∈ seen then Except.error ("duplicate peer name: " ++ p.Name)
    else
      match parsePeerLinks p.Name nets p.Links with
      | Except.error e => Except.error e
      | Except.ok links' =>
        match checkPeers nets rest (seen ++ [p.Name]) with
        | Except.error e => Except.error e
        | Except.ok rest' => Except.ok ({ p with Links := links' } :: rest')

/-- Link-check pass of `Config.Create` over one network's links. -/
def parseNetLinks (selfName : String) (nets : List (String × Network)) :
    List (String × Option LinkOpts) → Except String (List (String × Option LinkOpts))
  | [] => Except.ok []
  | (tgt, l) :: rest =>
    if (lookupKey nets tgt).isNone then
      Except.error ("network " ++ selfName ++ " has link to non-existent network " ++ tgt)
    else
      match l with
      | none =>
        match parseNetLinks selfName nets rest with
        | Except.error e => Except.error e
        | Except.ok rest' => Except.ok ((tgt, none) :: rest')
      | some lo =>
        match lo.Parse with
        | (_, some e) => Except.error e
        | (lo', none) =>
          match parseNetLinks selfName nets rest with
          | Except.error e => Except.error e
          | Except.ok rest' => Except.ok ((tgt, some lo') :: rest')

/-- Network-link check pass of `Config.Create`: every network's links are
validated against the `nets` table and parsed. -/
def checkNetLinks (nets : List (String × Network)) :
    List (String × Network) → Except String (List (String × Network))
  | [] => Except.ok []
  | (name, n) :: rest =>
    match parseNetLinks name nets n.Links with
    | Except.error e => Except.error e
    | Except.ok links' =>
      match checkNetLinks nets rest with
      | Except.error e => Except.error e
      | Except.ok rest' => Except.ok ((name, { n with Links := links' }) :: rest')

/-- Bridge-creation loop of `Config.Create`. -/
def createBridges : List (String × Network) → RenderedNetwork → Wst →
    (RenderedNetwork × Option String) × Wst
  | [], r, w => ((r, none), w)
  | (n, _) :: rest, r, w =>
    match r.freshNetworkName n w with
    | ((r1, Except.error e), w1) => ((r1, some ("generating network name: " ++ e)), w1)
    | ((r1, Except.ok bridgename), w1) =>
      match r1.CreateBridge bridgename w1 with
      | ((r2, some e), w2) => ((r2, some ("creating bridge: " ++ e)), w2)
      | ((r2, none), w2) => createBridges rest r2 w2

/-- Inner loop of the bridge-patching pass: the links of one network. -/
def patchLinks (bridge : String) : List (String × Option LinkOpts) →
    RenderedNetwork → Wst → (RenderedNetwork × Option String) × Wst
  | [], r, w => ((r, none), w)
  | (tgt, l) :: rest, r, w =>
    let targetBridge := lookupKeyD r.subnets tgt ""
    match r.PatchBridges bridge targetBridge l w with
    | ((r1, some e), w1) => ((r1, some ("patching bridges: " ++ e)), w1)
    | ((r1, none), w1) => patchLinks bridge rest r1 w1

/-- Bridge-patching loop of `Config.Create` over all networks. -/
def patchNetworks : List (String × Network) → RenderedNetwork → Wst →
    (RenderedNetwork × Option String) × Wst
  | [], r, w => ((r, none), w)
  | (name, n) :: rest, r, w =>
    match patchLinks (lookupKeyD r.subnets name "") n.Links r w with
    | ((r1, some e), w1) => ((r1, some e), w1)
    | ((r1, none), w1) => patchNetworks rest r1 w1

/-- Result of the peer-creation loops: either a Go panic escaped (from
`GetNextIp`), or the loop finished with the updated allocation table, the
ledger, and the error of the step that stopped it (`none` when done). -/
inductive PeersRes where
  | panicked : PeersRes
  | done : List (String × Network) → RenderedNetwork → Option String → PeersRes
deriving DecidableEq

/-- Inner loop of the peer pass: one peer's links (veth pair, bridge port,
namespace move, device-up calls, address allocation and assignment, optional
shaping). -/
def peerLinksLoop (ns bindMask : String) :
    List (String × Option LinkOpts) → List (String × Network) → RenderedNetwork →
    Wst → PeersRes × Wst
  | [], nets, r, w => (PeersRes.done nets r none, w)
  | (net, l) :: rest, nets, r, w =>
    let bridge := lookupKeyD r.subnets net ""
    match r.freshVethName "Interface" w with
    | (Except.error e, w1) => (PeersRes.done nets r (some ("generate interface name: " ++ e)), w1)
    | (Except.ok lnA, w1) =>
    match r.freshVethName "Port" w1 with
    | (Except.error e, w2) => (PeersRes.done nets r (some ("generate port name: " ++ e)), w2)
    | (Except.ok lnB, w2) =>
    match r.CreateVethPair lnA lnB w2 with
    | ((r1, some e), w3) => (PeersRes.done nets r1 (some ("create veth pair: " ++ e)), w3)
    | ((r1, none), w3) =>
    match r1.BridgeAddPort bridge lnB w3 with
    | (some e, w4) => (PeersRes.done nets r1 (some ("bridge add port: " ++ e)), w4)
    | (none, w4) =>
    match r1.AssignVethToNamespace lnA ns w4 with
    | ((r2, some e), w5) => (PeersRes.done nets r2 (some ("failed to assign veth to namespace: " ++ e)), w5)
    | ((r2, none), w5) =>
    match r2.NetNsExec ns "ip" ["link", "set", "dev", "lo", "up"] w5 with
    | (some e, w6) => (PeersRes.done nets r2 (some ("set ns link up: " ++ e)), w6)
    | (none, w6) =>
    match r2.NetNsExec ns "ip" ["link", "set", "dev", lnA, "up"] w6 with
    | (some e, w7) => (PeersRes.done nets r2 (some ("set ns link up: " ++ e)), w7)
    | (none, w7) =>
    match r2.SetDev lnB "up" w7 with
    | (some e, w8) => (PeersRes.done nets r2 (some e), w8)
    | (none, w8) =>
    match lookupKey nets net with
    | none => (PeersRes.panicked, w8)
    | some nobj =>
    match nobj.GetNextIp bindMask with
    | (_, none) => (PeersRes.panicked, w8)
    | (nobj', some next) =>
    let nets' := mapInsert nets net nobj'
    match r2.NetNsExec ns "ip" ["addr", "add", next, "dev", lnA] w8 with
    | (some e, w9) => (PeersRes.done nets' r2 (some e), w9)
    | (none, w9) =>
    match l with
    | none => peerLinksLoop ns bindMask rest nets' r2 w9
    | some lo =>
      match lo.Apply lnB w9 with
      | (some e, w10) => (PeersRes.done nets' r2 (some e), w10)
      | (none, w10) => peerLinksLoop ns bindMask rest nets' r2 w10

/-- Peer-creation loop of `Config.Create`: namespace, then the peer's
links. -/
def createPeers : List Peer → List (String × Network) → RenderedNetwork → Wst →
    PeersRes × Wst
  | [], nets, r, w => (PeersRes.done nets r none, w)
  | p :: rest, nets, r, w =>
    match r.CreateNamespace p.Name w with
    | ((r1, some e), w1) => (PeersRes.done nets r1 (some e), w1)
    | ((r1, none), w1) =>
      let ns := lookupKeyD r1.Namespaces p.Name ""
      match peerLinksLoop ns p.BindMask p.Links nets r1 w1 with
      | (PeersRes.panicked, w2) => (PeersRes.panicked, w2)
      | (PeersRes.done nets' r2 (some e), w2) => (PeersRes.done nets' r2 (some e), w2)
      | (PeersRes.done nets' r2 none, w2) => createPeers rest nets' r2 w2

/-- Result of `Config.Create`: a Go panic escaped, or the Go return values
`(*RenderedNetwork, error)` (nil receiver for validation failures). -/
inductive CreateRes where
  | panicked : CreateRes
  | ret : Option RenderedNetwork → Option String → CreateRes
deriving DecidableEq

/-- Final stage of `Config.Create`: the peer loop, wrapping its outcome as
the Go return values. -/
def createRender3 (peers : List Peer) (nets2 : List (String × Network))
    (r : RenderedNetwork) (w : Wst) : CreateRes × Wst :=
  match createPeers peers nets2 r w with
  | (PeersRes.panicked, w3) => (CreateRes.panicked, w3)
  | (PeersRes.done _ r3 (some e), w3) => (CreateRes.ret (some r3) (some e), w3)
  | (PeersRes.done _ r3 none, w3) => (CreateRes.ret (some r3) none, w3)

/-- Patch stage of `Config.Create`. -/
def createRender2 (peers : List Peer) (nets2 : List (String × Network))
    (r1 : RenderedNetwork) (w1 : Wst) : CreateRes × Wst :=
  match patchNetworks nets2 r1 w1 with
  | ((r2, some e), w2) => (CreateRes.ret (some r2) (some e), w2)
  | ((r2, none), w2) => createRender3 peers nets2 r2 w2

/-- Bridge stage of `Config.Create`, starting from the fresh ledger. -/
def createRender1 (cfg : Config) (peers : List Peer)
    (nets2 : List (String × Network)) (w : Wst) : CreateRes × Wst :=
  match createBridges nets2 cfg.NewRenderedNetwork w with
  | ((r1, some e), w1) => (CreateRes.ret (some r1) (some e), w1)
  | ((r1, none), w1) => createRender2 peers nets2 r1 w1

/-- Network-link validation stage of `Config.Create`. -/
def createPhaseC (cfg : Config) (nets : List (String × Network))
    (peers : List Peer) (w : Wst) : CreateRes × Wst :=
  match checkNetLinks nets nets with
  | Except.error e => (CreateRes.ret none (some e), w)
  | Except.ok nets2 => createRender1 cfg peers nets2 w

/-- Peer validation stage of `Config.Create`. -/
def createPhaseB (cfg : Config) (nets : List (String × Network)) (w : Wst) :
    CreateRes × Wst :=
  match checkPeers nets cfg.Peers [] with
  | Except.error e => (CreateRes.ret none (some e), w)
  | Except.ok peers => createPhaseC cfg nets peers w

/-- Go `Config.Create`: validation passes (duplicate network names and CIDR
ranges; duplicate peer names and peer links; network links), then the
render: bridges, bridge-to-bridge patches, namespaces and peer links.
Split into named stages; their composition transcribes the single Go
function body. -/
def Config.Create (cfg : Config) (w : Wst) : CreateRes × Wst :=
  match buildNets cfg.Networks [] with
  | Except.error e => (CreateRes.ret none (some e), w)
  | Except.ok nets => createPhaseB cfg nets w

/-- Interface-deletion loop of `Cleanup` (over a snapshot of the keys, as
Go's range over the map: only the visited key is deleted each step). -/
def cleanupInterfaces : List String → RenderedNetwork → Wst →
    (RenderedNetwork × Option String) × Wst
  | [], r, w => ((r, none), w)
  | i :: rest, r, w =>
    match r.DeleteInterface i w with
    | ((r1, none), w1) => cleanupInterfaces rest r1 w1
    | ((r1, some e), w1) => ((r1, some e), w1)

/-- Namespace-deletion loop of `Cleanup`: iterates the map's VALUES (the
generated namespace names), passing each to `DeleteNamespace`, exactly as
the source's `for _, ns := range r.Namespaces`. -/
def cleanupNamespaces : List String → RenderedNetwork → Wst →
    (RenderedNetwork × Option String) × Wst
  | [], r, w => ((r, none), w)
  | ns :: rest, r, w =>
    match r.DeleteNamespace ns w with
    | ((r1, none), w1) => cleanupNamespaces rest r1 w1
    | ((r1, some e), w1) => ((r1, some e), w1)

/-- Bridge-deletion loop of `Cleanup`. -/
def cleanupBridges : List String → RenderedNetwork → Wst →
    (RenderedNetwork × Option String) × Wst
  | [], r, w => ((r, none), w)
  | br :: rest, r, w =>
    match r.DeleteBridge br w with
    | ((r1, none), w1) => cleanupBridges rest r1 w1
    | ((r1, some e), w1) => ((r1, some e), w1)

/-- Go `RenderedNetwork.Cleanup`: delete every recorded interface, then
every recorded namespace (by generated name), then every recorded bridge,
stopping at the first failure. -/
def RenderedNetwork.Cleanup (r : RenderedNetwork) (w : Wst) :
    (RenderedNetwork × Option String) × Wst :=
  match cleanupInterfaces r.Interfaces r w with
  | ((r1, some e), w1) => ((r1, some e), w1)
  | ((r1, none), w1) =>
  match cleanupNamespaces (r1.Namespaces.map (fun kv => kv.2)) r1 w1 with
  | ((r2, some e), w2) => ((r2, some e), w2)
  | ((r2, none), w2) =>
  match cleanupBridges r2.Bridges r2 w2 with
  | ((r3, some e), w3) => ((r3, some e), w3)
  | ((r3, none), w3) => ((r3, none), w3)

/-- The end-to-end configuration of claim C1: one subnet "net" with range
10.0.0.0/24 (no links, no BindMask) and one peer "p" linked to "net" with no
shaping options. -/
def c1Config : Config :=
  { Networks := [{ Name := "net", IpRange := "10.0.0.0/24", Links := [], BindMask := "",
                   ipnet := none, nextIp := 0 }],
    Peers := [{ Name := "p", Links := [("net", none)], BindMask := "" }],
    Prefixes := [] }

/-- An oracle for the C1 run: a host whose interface inventory is lo and
eth0, no existing veths or namespaces, and every capability call
succeeding. -/
def c1Env : List Ext :=
  [Ext.scan ["lo", "eth0"], Ext.ok, Ext.scan [], Ext.ok, Ext.scan [], Ext.scan [],
   Ext.ok, Ext.ok, Ext.ok, Ext.ok, Ext.ok, Ext.ok, Ext.ok]

/-- The ledger the C1 run produces. -/
def c1Rendered : RenderedNetwork :=
  { Bridges := ["br0"], Namespaces := [("p", "ns0")], Interfaces := ["tap0"],
    subnets := [("net", "br0")],
    prefixes := [("Bridge", "br"), ("Interface", "veth"), ("Patch", "patch"),
                 ("Port", "tap"), ("Namespace", "ns")] }

/-- The capability calls the C1 run issues, in order. -/
def c1Log : List CapCall :=
  [CapCall.scanInterfaces,
   CapCall.bin ["ovs-vsctl", "add-br", "br0"],
   CapCall.scanNamespaces,
   CapCall.bin ["ip", "netns", "add", "ns0"],
   CapCall.scanVeths,
   CapCall.scanVeths,
   CapCall.bin ["ip", "link", "add", "veth0", "type", "veth", "peer", "name", "tap0"],
   CapCall.bin ["ovs-vsctl", "add-port", "br0", "tap0"],
   CapCall.bin ["ip", "link", "set", "veth0", "netns", "ns0"],
   CapCall.bin ["ip", "netns", "exec", "ns0", "ip", "link", "set", "dev", "lo", "up"],
   CapCall.bin ["ip", "netns", "exec", "ns0", "ip", "link", "set", "dev", "veth0", "up"],
   CapCall.bin ["ip", "link", "set", "dev", "tap0", "up"],
   CapCall.bin ["ip", "netns", "exec", "ns0", "ip", "addr", "add", "10.0.0.1/24", "dev", "veth0"]]

/-- Interface set of a successful render result (empty for failures):
projection used to state claims about the final ledger. -/
def resultInterfaces : CreateRes × Wst → List String
  | (CreateRes.ret (some r) _, _) => r.Interfaces
  | _ => []

/-- Whether a `Create` result is a full success (a ledger and a nil error). -/
def resultOk : CreateRes × Wst → Bool
  | (CreateRes.ret (some _) none, _) => true
  | _ => false

/-- The rendered topology of claim C3's teardown run: one bridge, one
namespace recorded for peer "p" as generated name "ns0", one remaining
global veth. -/
def c3Rendered : RenderedNetwork :=
  { Bridges := ["br0"], Namespaces := [("p", "ns0")], Interfaces := ["tap0"],
    subnets := [("net", "br0")],
    prefixes := [("Bridge", "br"), ("Interface", "veth"), ("Patch", "patch"),
                 ("Port", "tap"), ("Namespace", "ns")] }

/-- Every destruction call succeeds. -/
def c3Env : List Ext := [Ext.ok, Ext.ok, Ext.ok]

/-- A config with two subnets named "a" (claim C4). -/
def dupNetConfig : Config :=
  { Networks := [{ Name := "a", IpRange := "10.0.0.0/24", Links := [], BindMask := "",
                   ipnet := none, nextIp := 0 },
                 { Name := "a", IpRange := "10.0.1.0/24", Links := [], BindMask := "",
                   ipnet := none, nextIp := 0 }],
    Peers := [], Prefixes := [] }

/-- A config with two peers named "p" (claim C4). -/
def dupPeerConfig : Config :=
  { Networks := [{ Name := "n", IpRange := "10.0.0.0/24", Links := [], BindMask := "",
                   ipnet := none, nextIp := 0 }],
    Peers := [{ Name := "p", Links := [], BindMask := "" },
              { Name := "p", Links := [], BindMask := "" }],
    Prefixes := [] }

/-- A config whose peer links to the nonexistent subnet "X" (claim C4). -/
def badPeerLinkConfig : Config :=
  { Networks := [],
    Peers := [{ Name := "p", Links := [("X", none)], BindMask := "" }],
    Prefixes := [] }

/-- A config whose subnet links to the nonexistent subnet "X" (claim C4). -/
def badNetLinkConfig : Config :=
  { Networks := [{ Name := "a", IpRange := "10.0.0.0/24", Links := [("X", none)],
                   BindMask := "", ipnet := none, nextIp := 0 }],
    Peers := [], Prefixes := [] }

/-- The subnet 10.1.1.0/24 as `Create` would build it, before any
allocation (claim C6's example). -/
def net10 : Network :=
  { Name := "n", IpRange := "10.1.1.0/24", Links := [], BindMask := "",
    ipnet := parseCIDR "10.1.1.0/24", nextIp := 0 }

/-- The subnet 0.0.0.0/24 as `Create` would build it (claim C10's example:
base address 0). -/
def net0 : Network :=
  { Name := "z", IpRange := "0.0.0.0/24", Links := [], BindMask := "",
    ipnet := parseCIDR "0.0.0.0/24", nextIp := 0 }

/-- The network names of a config (claim C4's uniqueness domain). -/
def networkNames (cfg : Config) : List String := cfg.Networks.map Network.Name

/-- The peer names of a config (claim C4's uniqueness domain). -/
def peerNames (cfg : Config) : List String := cfg.Peers.map Peer.Name

theorem freshName_foldl (pfx : List Char) :
    ∀ (l : List String) (b : Bool) (m : Nat),
      l.foldl (freshStep pfx) (b, m) =
        (b || l.any (fun name => (stripPfx pfx name.data).isSome),
         (l.filterMap (fun name => (stripPfx pfx name.data).bind parseUint64)).foldl
           (fun a n => if a < n then n else a) m) := by
  intro l
  induction l with
  | nil => intro b m; simp
  | cons x xs ih =>
    intro b m
    simp only [List.foldl_cons, List.any_cons, List.filterMap_cons]
    cases hs : stripPfx pfx x.data with
    | none => simp [freshStep, hs, ih]
    | some suffix =>
      cases hp : parseUint64 suffix with
      | none => simp [freshStep, hs, hp, ih]
      | some num => simp [freshStep, hs, hp, ih]

theorem maxStep_eq_max : (fun a n : Nat => if a < n then n else a) = (fun a n : Nat => max a n) := by
  funext a n
  rcases Nat.lt_or_ge a n with h | h
  · simp [h, Nat.max_def, Nat.le_of_lt h]
  · rw [if_neg (Nat.not_lt.mpr h), Nat.max_def]
    rcases Nat.lt_or_ge a n with h2 | h2
    · omega
    · by_cases h3 : a ≤ n
      · simp [h3]; omega
      · simp [h3]

/-- Claim C5 (amended). -/
theorem c5_freshName_amended :
    (∀ (pfx : String) (existing : List String),
        freshName pfx existing = pfx ++ toString (claimFreshNat pfx existing))
    ∧ freshName "br" ["br0", "br1", "br3"] = "br4"
    ∧ freshName "br" ["eth0", "lo"] = "br0" := by
  refine ⟨?_, by decide, by decide⟩
  intro pfx existing
  unfold freshName claimFreshNat numericSuffixes sharesPfx
  rw [freshName_foldl]
  cases ha : existing.any (fun name => (stripPfx pfx.data name.data).isSome) with
  | true =>
    simp only [Bool.false_or, ha, if_pos]
    rw [maxStep_eq_max]
  | false =>
    simp only [Bool.false_or, ha, if_neg]
    have hnil : existing.filterMap (fun name => (stripPfx pfx.data name.data).bind parseUint64) = [] := by
      refine List.filterMap_eq_nil_iff.mpr fun a haa => ?_
      have : (stripPfx pfx.data a.data).isSome = false := by
        by_contra hcon
        have hsome : (stripPfx pfx.data a.data).isSome = true := by
          rw [Option.isSome_iff_ne_none]
          simpa using hcon
        have : existing.any (fun name => (stripPfx pfx.data name.data).isSome) = true :=
          List.any_eq_true.mpr ⟨a, haa, hsome⟩
        simp [this] at ha
      cases hcase : stripPfx pfx.data a.data with
      | none => rfl
      | some _ => simp [hcase] at this
    simp [hnil]

/-- Claim C5 counterexample. -/
theorem c5_counterexample :
    freshName "br" ["br18446744073709551616"] = "br1" ∧
    freshName "br" ["br18446744073709551616"] ≠ "br" ++ toString (18446744073709551616 + 1) := by
  constructor <;> decide

theorem isDigit_ne_sign {c : Char} (h : c.isDigit = true) : c ≠ '-' ∧ c ≠ '+' := by
  constructor
  · intro hh; subst hh; exact absurd h (by decide)
  · intro hh; subst hh; exact absurd h (by decide)

theorem toUint64_ofNat (v : Nat) (h : v < 18446744073709551616) :
    toUint64 (v : Int) = v := by
  unfold toUint64
  omega

theorem toUint64_neg (v : Nat) (h1 : 1 ≤ v) (h2 : v ≤ 18446744073709551616) :
    toUint64 (-(v : Int)) = 18446744073709551616 - v := by
  unfold toUint64
  omega

theorem goAtoi_digits (ds : List Char) (h1 : ds ≠ []) (h2 : ds.all Char.isDigit = true)
    (h3 : digitsVal ds ≤ 9223372036854775807) :
    goAtoi (String.mk ds) = ((digitsVal ds : Int), none) := by
  obtain ⟨d, tl, rfl⟩ := List.exists_cons_of_ne_nil h1
  have hd : d.isDigit = true := by
    have := List.all_eq_true.mp h2 d (List.mem_cons_self d tl)
    simpa using this
  obtain ⟨hd1, hd2⟩ := isDigit_ne_sign hd
  have hcond : ¬ (d :: tl = [] ∨ ¬ (d :: tl).all Char.isDigit = true) := by
    simp [h2]
  unfold goAtoi
  simp only [if_neg hd1, if_neg hd2]
  rw [if_neg hcond]
  rw [if_neg (by exact Bool.false_ne_true)]
  rw [if_pos h3]

theorem goAtoi_neg_digits (ds : List Char) (h1 : ds ≠ []) (h2 : ds.all Char.isDigit = true)
    (h3 : digitsVal ds ≤ 9223372036854775808) :
    goAtoi (String.mk ('-' :: ds)) = (-(digitsVal ds : Int), none) := by
  have hcond : ¬ (ds = [] ∨ ¬ ds.all Char.isDigit = true) := by simp [h1, h2]
  unfold goAtoi
  simp [hcond, h3]
  exact ⟨h1, fun x hx => by simpa using List.all_eq_true.mp h2 x hx⟩

theorem PHLR_eq_tib (s : String) (revRest : List Char)
    (h0 : ¬ s.data = []) (h4 : ¬ s.data.length < 4)
    (hrev : s.data.reverse = 't' :: 'i' :: 'b' :: revRest) :
    ParseHumanLinkRate s = parseRateNum revRest := by
  unfold ParseHumanLinkRate
  rw [if_neg h0, if_neg h4, hrev]
  rfl

theorem parseRateNum_digit (c : Char) (rev2 : List Char) (hc : c.isDigit = true) :
    parseRateNum (c :: rev2) =
      (match goAtoi (String.mk ((c :: rev2).reverse)) with
       | (_, some e) => (0, some e)
       | (val, none) => ((toUint64 val * 1) % U64, none)) := by
  show (let pick : (Nat × List Char) × Option String :=
          if c.isDigit then ((1, c :: rev2), none)
          else
            match prefixMul c with
            | some m => ((m, rev2), none)
            | none => ((1, c :: rev2), some ("invalid metric prefix: " ++ String.mk [c]))
        match pick with
        | (_, some e) => (0, some e)
        | ((mul, revNum), none) =>
          match goAtoi (String.mk revNum.reverse) with
          | (_, some e) => (0, some e)
          | (val, none) => ((toUint64 val * mul) % U64, none)) = _
  rw [if_pos hc]

theorem parseRateNum_pfx (c : Char) (rev2 : List Char) (mul : Nat)
    (hc : c.isDigit = false) (hm : prefixMul c = some mul) :
    parseRateNum (c :: rev2) =
      (match goAtoi (String.mk rev2.reverse) with
       | (_, some e) => (0, some e)
       | (val, none) => ((toUint64 val * mul) % U64, none)) := by
  show (let pick : (Nat × List Char) × Option String :=
          if c.isDigit then ((1, c :: rev2), none)
          else
            match prefixMul c with
            | some m => ((m, rev2), none)
            | none => ((1, c :: rev2), some ("invalid metric prefix: " ++ String.mk [c]))
        match pick with
        | (_, some e) => (0, some e)
        | ((mul, revNum), none) =>
          match goAtoi (String.mk revNum.reverse) with
          | (_, some e) => (0, some e)
          | (val, none) => ((toUint64 val * mul) % U64, none)) = _
  rw [if_neg (by simp [hc]), hm]

theorem parseRateNum_badpfx (c : Char) (rev2 : List Char)
    (hc : c.isDigit = false) (hm : prefixMul c = none) :
    parseRateNum (c :: rev2) =
      (0, some ("invalid metric prefix: " ++ String.mk [c])) := by
  show (let pick : (Nat × List Char) × Option String :=
          if c.isDigit then ((1, c :: rev2), none)
          else
            match prefixMul c with
            | some m => ((m, rev2), none)
            | none => ((1, c :: rev2), some ("invalid metric prefix: " ++ String.mk [c]))
        match pick with
        | (_, some e) => (0, some e)
        | ((mul, revNum), none) =>
          match goAtoi (String.mk revNum.reverse) with
          | (_, some e) => (0, some e)
          | (val, none) => ((toUint64 val * mul) % U64, none)) = _
  rw [if_neg (by simp [hc]), hm]

/-- Claim C7 (amended): empty parses to 0; a digit magnitude with "bit"
parses to the magnitude; with a metric prefix letter the result is the
magnitude times the multiplier reduced modulo 2^64 (Go `uint` arithmetic);
an unrecognized trailing character is an error naming it; plus the spec's
concrete examples. -/
theorem c7_parseHumanLinkRate_amended :
    ParseHumanLinkRate "" = (0, none)
    ∧ (∀ ds : List Char, ds ≠ [] → ds.all Char.isDigit = true →
        digitsVal ds ≤ 9223372036854775807 →
        ParseHumanLinkRate (String.mk (ds ++ ['b', 'i', 't'])) = (digitsVal ds, none))
    ∧ (∀ (ds : List Char) (c : Char) (mul : Nat), ds ≠ [] → ds.all Char.isDigit = true →
        digitsVal ds ≤ 9223372036854775807 →
        (c, mul) ∈ [('k', 1024), ('m', 1048576), ('g', 1073741824), ('t', 1099511627776)] →
        ParseHumanLinkRate (String.mk (ds ++ [c] ++ ['b', 'i', 't'])) =
          ((digitsVal ds * mul) % U64, none))
    ∧ (∀ (ds : List Char) (c : Char), c.isDigit = false → prefixMul c = none →
        ParseHumanLinkRate (String.mk (ds ++ [c] ++ ['b', 'i', 't'])) =
          (0, some ("invalid metric prefix: " ++ String.mk [c])))
    ∧ ParseHumanLinkRate "10mbit" = (10485760, none)
    ∧ ParseHumanLinkRate "100bit" = (100, none)
    ∧ ParseHumanLinkRate "10xbit" = (0, some "invalid metric prefix: x") := by
  refine ⟨by decide, ?_, ?_, ?_, by decide, by decide, by decide⟩
  · intro ds h1 h2 h3
    have hlp := List.length_pos.mpr h1
    obtain ⟨c0, rev2, hc⟩ := List.exists_cons_of_ne_nil
      (show ds.reverse ≠ [] by simpa using h1)
    have hc0 : c0.isDigit = true := by
      have hm : c0 ∈ ds := by
        rw [← List.mem_reverse, hc]; exact List.mem_cons_self c0 rev2
      simpa using List.all_eq_true.mp h2 c0 hm
    have hback : (c0 :: rev2).reverse = ds := by rw [← hc, List.reverse_reverse]
    rw [PHLR_eq_tib _ ds.reverse (by simp) (by simp [List.length_append]; omega)
      (by simp), hc, parseRateNum_digit c0 rev2 hc0, hback,
      goAtoi_digits ds h1 h2 h3]
    show ((toUint64 (digitsVal ds : Int) * 1) % U64, none) = (digitsVal ds, none)
    rw [toUint64_ofNat _ (by omega), Nat.mul_one,
      Nat.mod_eq_of_lt (by unfold U64; omega)]
  · intro ds c mul h1 h2 h3 hmem
    have hstep : c.isDigit = false ∧ prefixMul c = some mul := by
      simp only [List.mem_cons, List.not_mem_nil, or_false, Prod.mk.injEq] at hmem
      rcases hmem with ⟨rfl, rfl⟩ | ⟨rfl, rfl⟩ | ⟨rfl, rfl⟩ | ⟨rfl, rfl⟩ <;>
        exact ⟨by decide, by decide⟩
    obtain ⟨hcd, hm⟩ := hstep
    rw [PHLR_eq_tib _ (c :: ds.reverse) (by simp) (by simp)
      (by simp), parseRateNum_pfx c ds.reverse mul hcd hm, List.reverse_reverse,
      goAtoi_digits ds h1 h2 h3]
    show ((toUint64 (digitsVal ds : Int) * mul) % U64, none) = ((digitsVal ds * mul) % U64, none)
    rw [toUint64_ofNat _ (by omega)]
  · intro ds c hcd hm
    rw [PHLR_eq_tib _ (c :: ds.reverse) (by simp) (by simp)
      (by simp), parseRateNum_badpfx c ds.reverse hcd hm]

/-- Claim C7 counterexample: Go computes `uint(val) * mul` in 64-bit
arithmetic, so a magnitude whose product with the multiplier exceeds 2^64
does not yield the product the claim states. -/
theorem c7_counterexample :
    ParseHumanLinkRate "9223372036854775807kbit" = (18446744073709550592, none)
    ∧ (18446744073709550592 : Nat) ≠ 9223372036854775807 * 1024 := by
  constructor
  · decide
  · decide

theorem PPct_eq_pct (s : String) (revRest : List Char)
    (h0 : ¬ s.data = []) (hrev : s.data.reverse = '%' :: revRest) :
    ParsePercentage s = parsePercentNum revRest := by
  unfold ParsePercentage
  rw [if_neg h0, hrev]
  rfl

theorem PPct_eq_notpct (s : String) (c : Char) (revRest : List Char)
    (h0 : ¬ s.data = []) (hrev : s.data.reverse = c :: revRest) (hne : c ≠ '%') :
    ParsePercentage s = (0, some "percentage strings must end in %") := by
  unfold ParsePercentage
  rw [if_neg h0, hrev]
  split
  · next heq =>
      rw [List.cons.injEq] at heq
      exact absurd heq.1 hne
  · rfl

/-- Claim C8 (amended): empty parses to 0; a digit integer with "%" parses
to that integer; any Atoi failure (non-integer prefix, or integer outside
the signed 64-bit range) is returned as an error; a missing "%" on nonempty
input is an error; a negative integer is accepted and wraps modulo 2^64
(Go `uint(v)` conversion); plus the spec's concrete examples. -/
theorem c8_parsePercentage_amended :
    ParsePercentage "" = (0, none)
    ∧ (∀ ds : List Char, ds ≠ [] → ds.all Char.isDigit = true →
        digitsVal ds ≤ 9223372036854775807 →
        ParsePercentage (String.mk (ds ++ ['%'])) = (digitsVal ds, none))
    ∧ (∀ (cs : List Char) (e : String), (goAtoi (String.mk cs)).2 = some e →
        ParsePercentage (String.mk (cs ++ ['%'])) = (0, some e))
    ∧ (∀ s : String, s.data ≠ [] → s.data.getLast? ≠ some '%' →
        ParsePercentage s = (0, some "percentage strings must end in %"))
    ∧ (∀ ds : List Char, ds ≠ [] → ds.all Char.isDigit = true →
        1 ≤ digitsVal ds → digitsVal ds ≤ 9223372036854775808 →
        ParsePercentage (String.mk ('-' :: (ds ++ ['%']))) = (U64 - digitsVal ds, none))
    ∧ ParsePercentage "5%" = (5, none)
    ∧ ParsePercentage "5" = (0, some "percentage strings must end in %") := by
  refine ⟨by decide, ?_, ?_, ?_, ?_, by decide, by decide⟩
  · intro ds h1 h2 h3
    rw [PPct_eq_pct _ ds.reverse (by simp) (by simp)]
    unfold parsePercentNum
    rw [List.reverse_reverse, goAtoi_digits ds h1 h2 h3]
    show (toUint64 (digitsVal ds : Int), none) = (digitsVal ds, none)
    rw [toUint64_ofNat _ (by omega)]
  · intro cs e he
    rw [PPct_eq_pct _ cs.reverse (by simp) (by simp)]
    unfold parsePercentNum
    rw [List.reverse_reverse]
    rcases hg : goAtoi (String.mk cs) with ⟨v, err⟩
    rw [hg] at he
    simp only at he
    subst he
    rfl
  · intro s h0 hlast
    rcases hr : s.data.reverse with _ | ⟨c, rest⟩
    · exact absurd (by simpa using hr) h0
    · have hcl : s.data.getLast? = some c := by
        rw [← List.head?_reverse, hr]
        rfl
      have hcne : c ≠ '%' := fun hh => hlast (hh ▸ hcl)
      exact PPct_eq_notpct s c rest h0 hr hcne
  · intro ds h1 h2 hge hle
    rw [PPct_eq_pct _ (ds.reverse ++ ['-']) (by simp) (by simp)]
    unfold parsePercentNum
    rw [show (ds.reverse ++ ['-']).reverse = '-' :: ds from by simp]
    rw [goAtoi_neg_digits ds h1 h2 hle]
    show (toUint64 (-(digitsVal ds : Int)), none) = (U64 - digitsVal ds, none)
    rw [toUint64_neg _ hge (by omega)]
    rfl

/-- Claim C8 counterexample: a decimal integer above the signed 64-bit range
followed by "%" is an Atoi range error, not the integer the claim states;
and a negative integer is not returned "unmodified" but wrapped. -/
theorem c8_counterexample :
    ParsePercentage "18446744073709551616%" =
      (0, some "strconv.Atoi: parsing \"18446744073709551616\": value out of range")
    ∧ ParsePercentage "18446744073709551616%" ≠ (18446744073709551616, none)
    ∧ ParsePercentage "-1%" = (18446744073709551615, none) := by
  refine ⟨by decide, by decide, by decide⟩

theorem natBytesAux_congr : ∀ (v f1 f2 : Nat), v ≤ f1 → v ≤ f2 →
    natBytesAux f1 v = natBytesAux f2 v := by
  intro v
  induction v using Nat.strong_induction_on with
  | _ v ih =>
    intro f1 f2 h1 h2
    match f1, f2 with
    | 0, 0 => rfl
    | 0, f2 + 1 =>
      have hv : v = 0 := Nat.le_zero.mp h1
      subst hv
      rfl
    | f1 + 1, 0 =>
      have hv : v = 0 := Nat.le_zero.mp h2
      subst hv
      rfl
    | f1 + 1, f2 + 1 =>
      by_cases hv : v = 0
      · subst hv; rfl
      · show (if v = 0 then [] else natBytesAux f1 (v / 256) ++ [v % 256]) =
          (if v = 0 then [] else natBytesAux f2 (v / 256) ++ [v % 256])
        rw [if_neg hv, if_neg hv]
        have hlt : v / 256 < v := Nat.div_lt_self (Nat.pos_of_ne_zero hv) (by decide)
        rw [ih (v / 256) hlt f1 f2 (by omega) (by omega)]

theorem natBytes_unfold (v : Nat) (hv : v ≠ 0) :
    natBytes v = natBytes (v / 256) ++ [v % 256] := by
  unfold natBytes
  have h1 : natBytesAux v v = natBytesAux (v / 256) (v / 256) ++ [v % 256] := by
    obtain ⟨f, rfl⟩ : ∃ f, v = f + 1 := ⟨v - 1, by omega⟩
    show (if f + 1 = 0 then [] else natBytesAux f ((f + 1) / 256) ++ [(f + 1) % 256]) = _
    rw [if_neg hv]
    have hlt : (f + 1) / 256 < f + 1 := Nat.div_lt_self (by omega) (by decide)
    rw [natBytesAux_congr ((f + 1) / 256) f ((f + 1) / 256) (by omega) (by omega)]
  exact h1

theorem natBytes_len_le : ∀ (k v : Nat), v < 256 ^ k → (natBytes v).length ≤ k := by
  intro k
  induction k with
  | zero =>
    intro v h
    have : v = 0 := by simpa using h
    subst this
    rfl
  | succ k ih =>
    intro v h
    by_cases hv : v = 0
    · subst hv; simp [natBytes, natBytesAux]
    · rw [natBytes_unfold v hv]
      have hd : v / 256 < 256 ^ k := by
        have : (256 : Nat) ^ (k + 1) = 256 ^ k * 256 := by ring
        rw [this] at h
        omega
      have := ih (v / 256) hd
      simp [List.length_append]
      omega

theorem natBytes_len_ge : ∀ (k v : Nat), 256 ^ k ≤ v → k < (natBytes v).length := by
  intro k
  induction k with
  | zero =>
    intro v h
    have hv : v ≠ 0 := by simpa using Nat.one_le_iff_ne_zero.mp (by simpa using h)
    rw [natBytes_unfold v hv]
    simp
  | succ k ih =>
    intro v h
    have hv : v ≠ 0 := by
      have : (0 : Nat) < 256 ^ (k + 1) := Nat.pos_pow_of_pos _ (by decide)
      omega
    rw [natBytes_unfold v hv]
    have hd : 256 ^ k ≤ v / 256 := by
      have : (256 : Nat) ^ (k + 1) = 256 ^ k * 256 := by ring
      rw [this] at h
      omega
    have := ih (v / 256) hd
    simp [List.length_append]
    omega

theorem natBytes_four (v : Nat) (h1 : 16777216 ≤ v) (h2 : v < 4294967296) :
    natBytes v = bytes4 v := by
  rw [natBytes_unfold v (by omega)]
  rw [natBytes_unfold (v / 256) (by omega)]
  rw [natBytes_unfold (v / 256 / 256) (by omega)]
  rw [natBytes_unfold (v / 256 / 256 / 256) (by omega)]
  have hz : v / 256 / 256 / 256 / 256 = 0 := by omega
  rw [hz]
  show ([] ++ [v / 256 / 256 / 256 % 256]) ++ [v / 256 / 256 % 256] ++ [v / 256 % 256] ++ [v % 256] = _
  unfold bytes4
  have e1 : v / 256 / 256 / 256 % 256 = v / 16777216 % 256 := by omega
  have e2 : v / 256 / 256 % 256 = v / 65536 % 256 := by omega
  rw [e1, e2]
  simp

theorem GetNextIp_eq (n : Network) (base ones : Nat) (mask : String)
    (hip : n.ipnet = some (base, ones)) :
    n.GetNextIp mask = getNextIpCore n base ones mask := by
  unfold Network.GetNextIp
  rw [hip]

/-- Claim C6: each allocation returns base plus the incremented offset
counter (so successive allocations are base+1, base+2, ... with no reuse and
no capacity check), rendered in CIDR notation under the spec's mask
precedence; plus the spec's three concrete examples for 10.1.1.0/24.
The numeric hypotheses keep the address inside the four-byte regime, where
`GetNextIp` does not panic (claim C10 covers the panic). -/
theorem c6_getNextIp_sequential_mask_precedence :
    (∀ (n : Network) (base ones : Nat) (m : String),
        n.ipnet = some (base, ones) →
        16777216 ≤ base + (n.nextIp + 1) →
        base + (n.nextIp + 1) < 4294967296 →
        n.GetNextIp m = ({ n with nextIp := n.nextIp + 1 },
          some (dottedBytes (bytes4 (base + (n.nextIp + 1))) ++ "/" ++
            maskSuffix (chooseMask m n.BindMask ones))))
    ∧ (net10.GetNextIp "").2 = some "10.1.1.1/24"
    ∧ (((net10.GetNextIp "").1).GetNextIp "").2 = some "10.1.1.2/24"
    ∧ (net10.GetNextIp "255.255.0.0").2 = some "10.1.1.1/16" := by
  refine ⟨?_, by decide, by decide, by decide⟩
  intro n base ones m hip h24 h32
  rw [GetNextIp_eq n base ones m hip]
  unfold getNextIpCore
  have hlen : (natBytes (base + (n.nextIp + 1))).length = 4 := by
    have hle := natBytes_len_le 4 (base + (n.nextIp + 1)) (by norm_num; omega)
    have hge := natBytes_len_ge 3 (base + (n.nextIp + 1)) (by norm_num; omega)
    omega
  rw [if_neg (by omega)]
  rw [natBytes_four _ h24 h32]
  rfl

/-- Claim C10: whenever the base address plus the incremented offset is
below 2^24, the minimal byte representation has fewer than four bytes and
Go indexes it out of range: `GetNextIp` panics (modelled as `none`) instead
of returning an address or error. -/
theorem c10_getNextIp_panics_below_2_24 :
    ∀ (n : Network) (base ones : Nat) (m : String),
      n.ipnet = some (base, ones) →
      base + (n.nextIp + 1) < 16777216 →
      n.GetNextIp m = ({ n with nextIp := n.nextIp + 1 }, none) := by
  intro n base ones m hip hlt
  rw [GetNextIp_eq n base ones m hip]
  unfold getNextIpCore
  have hle := natBytes_len_le 3 (base + (n.nextIp + 1)) (by norm_num; omega)
  rw [if_pos (by omega)]

/-- Claim C10 witness: the subnet 0.0.0.0/24 panics on its first
allocation. -/
theorem c10_witness :
    net0.GetNextIp "" = ({ net0 with nextIp := 1 }, none) :=
  c10_getNextIp_panics_below_2_24 net0 0 24 "" (by decide) (by decide)

/-- Claim C6 witness: the general statement instantiated at the parsed
subnet 10.1.1.0/24 with no override mask. -/
theorem c6_witness :
    net10.GetNextIp "" = ({ net10 with nextIp := 1 },
      some (dottedBytes (bytes4 (167837952 + (0 + 1))) ++ "/" ++
        maskSuffix (chooseMask "" "" 24))) :=
  c6_getNextIp_sequential_mask_precedence.1 net10 167837952 24 "" (by decide)
    (by decide) (by decide)

/-- Claim C9: applying a link spec is a no-op when all four fields are
unset; with a field set but no computed descriptor it fails with the
internal-state error without any external call; otherwise it issues the
external shaping call on the named interface (visible in the call log). -/
theorem c9_apply_requires_parsed_descriptor :
    ∀ (lo : LinkOpts) (iface : String) (w : Wst),
      ((lo.Bandwidth = "" ∧ lo.PacketLoss = "" ∧ lo.Jitter = "" ∧ lo.Latency = "") →
        lo.Apply iface w = (none, w))
      ∧ (¬ (lo.Bandwidth = "" ∧ lo.PacketLoss = "" ∧ lo.Jitter = "" ∧ lo.Latency = "") →
          lo.lset = none →
          lo.Apply iface w = (some ("linkopts has not been parsed for iface " ++ iface), w))
      ∧ (∀ ls : LinkSettings,
          ¬ (lo.Bandwidth = "" ∧ lo.PacketLoss = "" ∧ lo.Jitter = "" ∧ lo.Latency = "") →
          lo.lset = some ls →
          lo.Apply iface w = ctrlnetSetLink iface ls w ∧
          (lo.Apply iface w).2.log = w.log ++ [CapCall.setLink iface ls]) := by
  intro lo iface w
  refine ⟨?_, ?_, ?_⟩
  · intro h
    unfold LinkOpts.Apply
    rw [if_pos h]
  · intro h hn
    unfold LinkOpts.Apply
    rw [if_neg h, hn]
  · intro ls h hs
    unfold LinkOpts.Apply
    rw [if_neg h, hs]
    refine ⟨rfl, ?_⟩
    show (ctrlnetSetLink iface ls w).2.log = _
    unfold ctrlnetSetLink
    rcases w with ⟨env, log⟩
    cases env with
    | nil => rfl
    | cons e rest => cases e <;> rfl

/-- Claim C9 witness: the three cases at concrete inputs. -/
theorem c9_witness :
    LinkOpts.Apply ⟨"", "", "", "", none⟩ "veth0" ⟨[], []⟩ = (none, ⟨[], []⟩)
    ∧ LinkOpts.Apply ⟨"", "", "10mbit", "", none⟩ "veth0" ⟨[], []⟩ =
        (some "linkopts has not been parsed for iface veth0", ⟨[], []⟩)
    ∧ (LinkOpts.Apply ⟨"", "", "10mbit", "", some ⟨0, 0, 10485760, 0⟩⟩ "veth0"
        ⟨[Ext.ok], []⟩).2.log = [CapCall.setLink "veth0" ⟨0, 0, 10485760, 0⟩] :=
  ⟨(c9_apply_requires_parsed_descriptor ⟨"", "", "", "", none⟩ "veth0" ⟨[], []⟩).1
      ⟨rfl, rfl, rfl, rfl⟩,
   (c9_apply_requires_parsed_descriptor ⟨"", "", "10mbit", "", none⟩ "veth0" ⟨[], []⟩).2.1
      (by simp) rfl,
   ((c9_apply_requires_parsed_descriptor ⟨"", "", "10mbit", "", some ⟨0, 0, 10485760, 0⟩⟩
      "veth0" ⟨[Ext.ok], []⟩).2.2 ⟨0, 0, 10485760, 0⟩ (by simp) rfl).2⟩

theorem CreateBridge_spec (r : RenderedNetwork) (name : String) (w : Wst) :
    ((r.CreateBridge name w).1.2 = none →
      (r.CreateBridge name w).1.1 = { r with Bridges := setInsert r.Bridges name })
    ∧ (∀ e, (r.CreateBridge name w).1.2 = some e → (r.CreateBridge name w).1.1 = r) := by
  unfold RenderedNetwork.CreateBridge
  rcases hc : callBin ["ovs-vsctl", "add-br", name] w with ⟨err, w'⟩
  cases err with
  | none => exact ⟨fun _ => rfl, fun e he => Option.noConfusion he⟩
  | some m => exact ⟨fun h => Option.noConfusion h, fun e he => rfl⟩

theorem DeleteBridge_spec (r : RenderedNetwork) (name : String) (w : Wst) :
    ((r.DeleteBridge name w).1.2 = none →
      (r.DeleteBridge name w).1.1 = { r with Bridges := setRemove r.Bridges name })
    ∧ (∀ e, (r.DeleteBridge name w).1.2 = some e → (r.DeleteBridge name w).1.1 = r) := by
  unfold RenderedNetwork.DeleteBridge
  rcases hc : callBin ["ovs-vsctl", "del-br", name] w with ⟨err, w'⟩
  cases err with
  | none => exact ⟨fun _ => rfl, fun e he => Option.noConfusion he⟩
  | some m => exact ⟨fun h => Option.noConfusion h, fun e he => rfl⟩

theorem CreateNamespace_spec (r : RenderedNetwork) (name : String) (w : Wst) :
    ((r.CreateNamespace name w).1.2 = none →
      ∃ fresh, (r.CreateNamespace name w).1.1 =
        { r with Namespaces := mapInsert r.Namespaces name fresh })
    ∧ (∀ e, (r.CreateNamespace name w).1.2 = some e → (r.CreateNamespace name w).1.1 = r) := by
  rcases w with ⟨env, log⟩
  cases env with
  | nil => exact ⟨fun h => Option.noConfusion h, fun e he => rfl⟩
  | cons x rest =>
    cases x with
    | ok => exact ⟨fun h => Option.noConfusion h, fun e he => rfl⟩
    | fail m => exact ⟨fun h => Option.noConfusion h, fun e he => rfl⟩
    | scanFail m => exact ⟨fun h => Option.noConfusion h, fun e he => rfl⟩
    | scan names =>
      cases rest with
      | nil => exact ⟨fun h => Option.noConfusion h, fun e he => rfl⟩
      | cons y rest2 =>
        cases y with
        | ok =>
          exact ⟨fun _ => ⟨freshName (lookupKeyD r.prefixes "Namespace" "") names, rfl⟩,
            fun e he => Option.noConfusion he⟩
        | fail m => exact ⟨fun h => Option.noConfusion h, fun e he => rfl⟩
        | scan names2 => exact ⟨fun h => Option.noConfusion h, fun e he => rfl⟩
        | scanFail m => exact ⟨fun h => Option.noConfusion h, fun e he => rfl⟩

theorem DeleteNamespace_spec (r : RenderedNetwork) (name : String) (w : Wst) :
    ((r.DeleteNamespace name w).1.2 = none →
      (r.DeleteNamespace name w).1.1 = { r with Namespaces := mapRemove r.Namespaces name })
    ∧ (∀ e, (r.DeleteNamespace name w).1.2 = some e → (r.DeleteNamespace name w).1.1 = r) := by
  unfold RenderedNetwork.DeleteNamespace
  rcases hc : callBin ["ip", "netns", "del", name] w with ⟨err, w'⟩
  cases err with
  | none => exact ⟨fun _ => rfl, fun e he => Option.noConfusion he⟩
  | some m => exact ⟨fun h => Option.noConfusion h, fun e he => rfl⟩

theorem CreateVeth_spec (r : RenderedNetwork) (a : String) (w : Wst) :
    ((r.CreateVeth a w).1.2 = none →
      (r.CreateVeth a w).1.1 = { r with Interfaces := setInsert r.Interfaces a })
    ∧ (∀ e, (r.CreateVeth a w).1.2 = some e → (r.CreateVeth a w).1.1 = r) := by
  unfold RenderedNetwork.CreateVeth
  rcases hc : callBin ["ip", "link", "add", a, "type", "veth"] w with ⟨err, w'⟩
  cases err with
  | none => exact ⟨fun _ => rfl, fun e he => Option.noConfusion he⟩
  | some m => exact ⟨fun h => Option.noConfusion h, fun e he => rfl⟩

theorem CreateVethPair_spec (r : RenderedNetwork) (a b : String) (w : Wst) :
    ((r.CreateVethPair a b w).1.2 = none →
      (r.CreateVethPair a b w).1.1 =
        { r with Interfaces := setInsert (setInsert r.Interfaces a) b })
    ∧ (∀ e, (r.CreateVethPair a b w).1.2 = some e → (r.CreateVethPair a b w).1.1 = r) := by
  unfold RenderedNetwork.CreateVethPair
  rcases hc : callBin ["ip", "link", "add", a, "type", "veth", "peer", "name", b] w with ⟨err, w'⟩
  cases err with
  | none => exact ⟨fun _ => rfl, fun e he => Option.noConfusion he⟩
  | some m => exact ⟨fun h => Option.noConfusion h, fun e he => rfl⟩

theorem DeleteInterface_spec (r : RenderedNetwork) (name : String) (w : Wst) :
    ((r.DeleteInterface name w).1.2 = none →
      (r.DeleteInterface name w).1.1 = { r with Interfaces := setRemove r.Interfaces name })
    ∧ (∀ e, (r.DeleteInterface name w).1.2 = some e → (r.DeleteInterface name w).1.1 = r) := by
  unfold RenderedNetwork.DeleteInterface
  rcases hc : callBin ["ip", "link", "del", name] w with ⟨err, w'⟩
  cases err with
  | none => exact ⟨fun _ => rfl, fun e he => Option.noConfusion he⟩
  | some m => exact ⟨fun h => Option.noConfusion h, fun e he => rfl⟩

theorem AssignVeth_spec (r : RenderedNetwork) (veth ns : String) (w : Wst) :
    ((r.AssignVethToNamespace veth ns w).1.2 = none →
      (r.AssignVethToNamespace veth ns w).1.1 =
        { r with Interfaces := setRemove r.Interfaces veth })
    ∧ (∀ e, (r.AssignVethToNamespace veth ns w).1.2 = some e →
        (r.AssignVethToNamespace veth ns w).1.1 = r) := by
  unfold RenderedNetwork.AssignVethToNamespace
  rcases hc : callBin ["ip", "link", "set", veth, "netns", ns] w with ⟨err, w'⟩
  cases err with
  | none => exact ⟨fun _ => rfl, fun e he => Option.noConfusion he⟩
  | some m => exact ⟨fun h => Option.noConfusion h, fun e he => rfl⟩

/-- Claim C2: each ledger-touching capability method leaves the ledger
unchanged when its external call fails, and on success changes it by exactly
the corresponding entry: creations insert it, deletions remove it, and the
namespace move removes the veth from the global-interface set (the veth
ceases to exist in the global namespace).  The remaining methods
(BridgeAddPort, PortSetParameter, PortSetOption, NetNsExec, SetDev) return
no ledger at all, so this covers every way the ledger can change in any
sequence of calls. -/
theorem c2_ledger_changes_only_on_success :
    ∀ (r : RenderedNetwork) (w : Wst) (name a b veth ns : String),
      ((r.CreateBridge name w).1.2 = none →
          (r.CreateBridge name w).1.1 = { r with Bridges := setInsert r.Bridges name })
      ∧ (∀ e, (r.CreateBridge name w).1.2 = some e → (r.CreateBridge name w).1.1 = r)
      ∧ ((r.DeleteBridge name w).1.2 = none →
          (r.DeleteBridge name w).1.1 = { r with Bridges := setRemove r.Bridges name })
      ∧ (∀ e, (r.DeleteBridge name w).1.2 = some e → (r.DeleteBridge name w).1.1 = r)
      ∧ ((r.CreateNamespace name w).1.2 = none →
          ∃ fresh, (r.CreateNamespace name w).1.1 =
            { r with Namespaces := mapInsert r.Namespaces name fresh })
      ∧ (∀ e, (r.CreateNamespace name w).1.2 = some e → (r.CreateNamespace name w).1.1 = r)
      ∧ ((r.DeleteNamespace name w).1.2 = none →
          (r.DeleteNamespace name w).1.1 = { r with Namespaces := mapRemove r.Namespaces name })
      ∧ (∀ e, (r.DeleteNamespace name w).1.2 = some e → (r.DeleteNamespace name w).1.1 = r)
      ∧ ((r.CreateVeth a w).1.2 = none →
          (r.CreateVeth a w).1.1 = { r with Interfaces := setInsert r.Interfaces a })
      ∧ (∀ e, (r.CreateVeth a w).1.2 = some e → (r.CreateVeth a w).1.1 = r)
      ∧ ((r.CreateVethPair a b w).1.2 = none →
          (r.CreateVethPair a b w).1.1 =
            { r with Interfaces := setInsert (setInsert r.Interfaces a) b })
      ∧ (∀ e, (r.CreateVethPair a b w).1.2 = some e → (r.CreateVethPair a b w).1.1 = r)
      ∧ ((r.DeleteInterface name w).1.2 = none →
          (r.DeleteInterface name w).1.1 = { r with Interfaces := setRemove r.Interfaces name })
      ∧ (∀ e, (r.DeleteInterface name w).1.2 = some e → (r.DeleteInterface name w).1.1 = r)
      ∧ ((r.AssignVethToNamespace veth ns w).1.2 = none →
          (r.AssignVethToNamespace veth ns w).1.1 =
            { r with Interfaces := setRemove r.Interfaces veth })
      ∧ (∀ e, (r.AssignVethToNamespace veth ns w).1.2 = some e →
          (r.AssignVethToNamespace veth ns w).1.1 = r) := by
  intro r w name a b veth ns
  exact ⟨(CreateBridge_spec r name w).1, (CreateBridge_spec r name w).2,
    (DeleteBridge_spec r name w).1, (DeleteBridge_spec r name w).2,
    (CreateNamespace_spec r name w).1, (CreateNamespace_spec r name w).2,
    (DeleteNamespace_spec r name w).1, (DeleteNamespace_spec r name w).2,
    (CreateVeth_spec r a w).1, (CreateVeth_spec r a w).2,
    (CreateVethPair_spec r a b w).1, (CreateVethPair_spec r a b w).2,
    (DeleteInterface_spec r name w).1, (DeleteInterface_spec r name w).2,
    (AssignVeth_spec r veth ns w).1, (AssignVeth_spec r veth ns w).2⟩

/-- Claim C2 witness: a failing bridge creation leaves the ledger unchanged,
and a successful one records exactly the bridge. -/
theorem c2_witness :
    (RenderedNetwork.CreateBridge c3Rendered "br9" ⟨[Ext.fail "boom"], []⟩).1.1 = c3Rendered
    ∧ (RenderedNetwork.CreateBridge c3Rendered "br9" ⟨[Ext.ok], []⟩).1.1 =
        { c3Rendered with Bridges := setInsert c3Rendered.Bridges "br9" } :=
  ⟨(c2_ledger_changes_only_on_success c3Rendered ⟨[Ext.fail "boom"], []⟩ "br9" "" "" "" "").2.1
      "boom" (by decide),
   (c2_ledger_changes_only_on_success c3Rendered ⟨[Ext.ok], []⟩ "br9" "" "" "" "").1
      (by decide)⟩

/-- Claim C1 (amended): the end-to-end render of one subnet and one peer
succeeds and returns a ledger with exactly one switch ("br0"), exactly one
namespace entry mapping "p" to its allocated namespace name ("ns0"), and
exactly ONE cable endpoint in the interface set (the switch-side "tap0";
the peer-side "veth0" is removed from the global set when it is moved into
the namespace), and the peer's endpoint is assigned "10.0.0.1/24" (the
logged address-add command inside the namespace). -/
theorem c1_render_one_switch_one_namespace_one_endpoint :
    Config.Create c1Config ⟨c1Env, []⟩ = (CreateRes.ret (some c1Rendered) none, ⟨[], c1Log⟩)
    ∧ c1Rendered.Bridges = ["br0"]
    ∧ c1Rendered.Namespaces = [("p", "ns0")]
    ∧ c1Rendered.Interfaces = ["tap0"]
    ∧ CapCall.bin ["ip", "netns", "exec", "ns0", "ip", "addr", "add", "10.0.0.1/24",
        "dev", "veth0"] ∈ c1Log := by
  refine ⟨by decide, rfl, rfl, rfl, by decide⟩

/-- Claim C1 counterexample: the successful render's interface set holds one
endpoint, not the two the claim states. -/
theorem c1_counterexample_not_two_endpoints :
    resultOk (Config.Create c1Config ⟨c1Env, []⟩) = true
    ∧ (resultInterfaces (Config.Create c1Config ⟨c1Env, []⟩)).length = 1
    ∧ (resultInterfaces (Config.Create c1Config ⟨c1Env, []⟩)).length ≠ 2 := by
  refine ⟨by decide, by decide, by decide⟩

/-- Claim C3: the teardown of a fully-rendered topology with every
destruction call succeeding returns no error and clears Interfaces and
Bridges, but the namespace entry ("p" maps to "ns0") is still in the ledger:
`Cleanup` passes the generated name "ns0" to `DeleteNamespace`, which
deletes the map key "ns0", while the entry is keyed by the peer name "p". -/
theorem c3_cleanup_leaves_namespace_entry :
    RenderedNetwork.Cleanup c3Rendered ⟨c3Env, []⟩ =
      (({ c3Rendered with Interfaces := [], Bridges := [] }, none),
       ⟨[], [CapCall.bin ["ip", "link", "del", "tap0"],
             CapCall.bin ["ip", "netns", "del", "ns0"],
             CapCall.bin ["ovs-vsctl", "del-br", "br0"]]⟩)
    ∧ ({ c3Rendered with Interfaces := [], Bridges := [] } : RenderedNetwork).Namespaces
        = [("p", "ns0")]
    ∧ ([("p", "ns0")] : List (String × String)) ≠ [] := by
  refine ⟨by decide, rfl, by decide⟩

theorem lookupKey_isSome_iff {α : Type} (m : List (String × α)) (k : String) :
    (lookupKey m k).isSome = true ↔ k ∈ m.map Prod.fst := by
  induction m with
  | nil => simp [lookupKey]
  | cons kv rest ih =>
    rcases kv with ⟨k', v⟩
    by_cases h : k = k' <;> simp [lookupKey, h, ih]

theorem lookupKey_eq_none_iff {α : Type} (m : List (String × α)) (k : String) :
    lookupKey m k = none ↔ k ∉ m.map Prod.fst := by
  rw [← lookupKey_isSome_iff]
  cases lookupKey m k <;> simp

theorem buildNets_keys : ∀ (ns : List Network) (acc res : List (String × Network)),
    buildNets ns acc = Except.ok res →
    res.map Prod.fst = acc.map Prod.fst ++ ns.map Network.Name := by
  intro ns
  induction ns with
  | nil =>
    intro acc res h
    simp only [buildNets] at h
    injection h with h'
    subst h'
    simp
  | cons n rest ih =>
    intro acc res h
    unfold buildNets at h
    split at h
    · exact Except.noConfusion h
    · split at h
      · exact Except.noConfusion h
      · next bo heq =>
        have := ih _ _ h
        rw [this]
        simp

theorem buildNets_sub : ∀ (ns : List Network) (acc res : List (String × Network)),
    buildNets ns acc = Except.ok res → ∀ x ∈ acc, x ∈ res := by
  intro ns
  induction ns with
  | nil =>
    intro acc res h x hx
    simp only [buildNets] at h
    injection h with h'
    subst h'
    exact hx
  | cons n rest ih =>
    intro acc res h x hx
    unfold buildNets at h
    split at h
    · exact Except.noConfusion h
    · split at h
      · exact Except.noConfusion h
      · exact ih _ _ h x (by simp [hx])

theorem buildNets_mem : ∀ (ns : List Network) (acc res : List (String × Network)),
    buildNets ns acc = Except.ok res →
    ∀ n ∈ ns, ∃ bo, (n.Name, { n with ipnet := some bo }) ∈ res := by
  intro ns
  induction ns with
  | nil =>
    intro acc res h n hn
    exact absurd hn (List.not_mem_nil n)
  | cons m rest ih =>
    intro acc res h n hn
    unfold buildNets at h
    split at h
    · exact Except.noConfusion h
    · split at h
      · exact Except.noConfusion h
      · next bo heq =>
        rcases List.mem_cons.mp hn with rfl | hn'
        · exact ⟨bo, buildNets_sub _ _ _ h _ (by simp)⟩
        · exact ih _ _ h n hn'

theorem buildNets_dup_error : ∀ (ns : List Network) (acc : List (String × Network)),
    ((∃ n ∈ ns, n.Name ∈ acc.map Prod.fst) ∨ ¬ (ns.map Network.Name).Nodup) →
    ∃ e, buildNets ns acc = Except.error e := by
  intro ns
  induction ns with
  | nil =>
    intro acc h
    rcases h with ⟨n, hn, _⟩ | hnd
    · exact absurd hn (List.not_mem_nil n)
    · exact absurd (by simp) hnd
  | cons n rest ih =>
    intro acc h
    by_cases hk : (lookupKey acc n.Name).isSome = true
    · exact ⟨_, by unfold buildNets; rw [if_pos hk]⟩
    · have hnk : n.Name ∉ acc.map Prod.fst := by
        rw [← lookupKey_isSome_iff]
        simpa using hk
      cases hc : parseCIDR n.IpRange with
      | none => exact ⟨_, by unfold buildNets; rw [if_neg hk, hc]⟩
      | some bo =>
        have hrec : (∃ m ∈ rest,
            m.Name ∈ (acc ++ [(n.Name, { n with ipnet := some bo })]).map Prod.fst) ∨
            ¬ (rest.map Network.Name).Nodup := by
          rcases h with ⟨m, hm, hacc⟩ | hnd
          · rcases List.mem_cons.mp hm with rfl | hm'
            · exact absurd hacc hnk
            · exact Or.inl ⟨m, hm', by simp [hacc]⟩
          · rw [List.map_cons, List.nodup_cons] at hnd
            by_cases hmem : n.Name ∈ rest.map Network.Name
            · obtain ⟨m, hm', hname⟩ := List.mem_map.mp hmem
              exact Or.inl ⟨m, hm', by simp [hname]⟩
            · exact Or.inr fun hnd2 => hnd ⟨hmem, hnd2⟩
        obtain ⟨e, he⟩ := ih _ hrec
        exact ⟨e, by unfold buildNets; rw [if_neg hk, hc]; exact he⟩

theorem parsePeerLinks_error_of_missing :
    ∀ (links : List (String × Option LinkOpts)) (pname : String)
      (nets : List (String × Network)) (tgt : String) (l : Option LinkOpts),
    (tgt, l) ∈ links → lookupKey nets tgt = none →
    ∃ e, parsePeerLinks pname nets links = Except.error e := by
  intro links
  induction links with
  | nil =>
    intro pname nets tgt l hmem _
    exact absurd hmem (List.not_mem_nil _)
  | cons hd rest ih =>
    intro pname nets tgt l hmem hlk
    rcases hd with ⟨t0, l0⟩
    by_cases h0 : (lookupKey nets t0).isNone = true
    · exact ⟨_, by unfold parsePeerLinks; rw [if_pos h0]⟩
    · rcases List.mem_cons.mp hmem with heq | hm'
      · rw [Prod.mk.injEq] at heq
        obtain ⟨rfl, rfl⟩ := heq
        exact absurd (by simp [hlk]) h0
      · obtain ⟨e, he⟩ := ih pname nets tgt l hm' hlk
        cases l0 with
        | none => exact ⟨e, by unfold parsePeerLinks; rw [if_neg h0, he]⟩
        | some lo =>
          rcases hp : lo.Parse with ⟨lo', perr⟩
          have hred : parsePeerLinks pname nets ((t0, some lo) :: rest) =
              (match lo.Parse with
               | (_, some e) => Except.error e
               | (lo2, none) =>
                 match parsePeerLinks pname nets rest with
                 | Except.error e => Except.error e
                 | Except.ok rest2 => Except.ok ((t0, some lo2) :: rest2)) := by
            conv_lhs => unfold parsePeerLinks
            rw [if_neg h0]
          cases perr with
          | some pe => exact ⟨pe, by rw [hred, hp]⟩
          | none => exact ⟨e, by rw [hred, hp, he]⟩

theorem checkPeers_dup_error : ∀ (ps : List Peer) (nets : List (String × Network))
    (seen : List String),
    (¬ (ps.map Peer.Name).Nodup ∨ ∃ p ∈ ps, p.Name ∈ seen) →
    ∃ e, checkPeers nets ps seen = Except.error e := by
  intro ps
  induction ps with
  | nil =>
    intro nets seen h
    rcases h with hnd | ⟨p, hp, _⟩
    · exact absurd (by simp) hnd
    · exact absurd hp (List.not_mem_nil p)
  | cons p rest ih =>
    intro nets seen h
    by_cases hs : p.Name ∈ seen
    · exact ⟨_, by unfold checkPeers; rw [if_pos hs]⟩
    · have hrec : ¬ (rest.map Peer.Name).Nodup ∨ ∃ q ∈ rest, q.Name ∈ seen ++ [p.Name] := by
        rcases h with hnd | ⟨q, hq, hqs⟩
        · rw [List.map_cons, List.nodup_cons] at hnd
          by_cases hmem : p.Name ∈ rest.map Peer.Name
          · obtain ⟨q, hq, hname⟩ := List.mem_map.mp hmem
            exact Or.inr ⟨q, hq, by simp [hname]⟩
          · exact Or.inl fun hnd2 => hnd ⟨hmem, hnd2⟩
        · rcases List.mem_cons.mp hq with rfl | hq'
          · exact absurd hqs hs
          · exact Or.inr ⟨q, hq', by simp [hqs]⟩
      obtain ⟨e, he⟩ := ih nets (seen ++ [p.Name]) hrec
      cases hpl : parsePeerLinks p.Name nets p.Links with
      | error pe => exact ⟨pe, by unfold checkPeers; rw [if_neg hs, hpl]⟩
      | ok links' => exact ⟨e, by unfold checkPeers; rw [if_neg hs, hpl, he]⟩

theorem checkPeers_badlink_error : ∀ (ps : List Peer) (nets : List (String × Network))
    (seen : List String) (p : Peer) (tgt : String) (l : Option LinkOpts),
    p ∈ ps → (tgt, l) ∈ p.Links → lookupKey nets tgt = none →
    ∃ e, checkPeers nets ps seen = Except.error e := by
  intro ps
  induction ps with
  | nil =>
    intro nets seen p tgt l hp _ _
    exact absurd hp (List.not_mem_nil p)
  | cons q rest ih =>
    intro nets seen p tgt l hp hl hlk
    by_cases hs : q.Name ∈ seen
    · exact ⟨_, by unfold checkPeers; rw [if_pos hs]⟩
    · rcases List.mem_cons.mp hp with rfl | hp'
      · obtain ⟨e, he⟩ := parsePeerLinks_error_of_missing p.Links p.Name nets tgt l hl hlk
        exact ⟨e, by unfold checkPeers; rw [if_neg hs, he]⟩
      · cases hpl : parsePeerLinks q.Name nets q.Links with
        | error pe => exact ⟨pe, by unfold checkPeers; rw [if_neg hs, hpl]⟩
        | ok links' =>
          obtain ⟨e, he⟩ := ih nets (seen ++ [q.Name]) p tgt l hp' hl hlk
          exact ⟨e, by unfold checkPeers; rw [if_neg hs, hpl, he]⟩

theorem parseNetLinks_error_of_missing :
    ∀ (links : List (String × Option LinkOpts)) (selfName : String)
      (nets : List (String × Network)) (tgt : String) (l : Option LinkOpts),
    (tgt, l) ∈ links → lookupKey nets tgt = none →
    ∃ e, parseNetLinks selfName nets links = Except.error e := by
  intro links
  induction links with
  | nil =>
    intro selfName nets tgt l hmem _
    exact absurd hmem (List.not_mem_nil _)
  | cons hd rest ih =>
    intro selfName nets tgt l hmem hlk
    rcases hd with ⟨t0, l0⟩
    by_cases h0 : (lookupKey nets t0).isNone = true
    · exact ⟨_, by unfold parseNetLinks; rw [if_pos h0]⟩
    · rcases List.mem_cons.mp hmem with heq | hm'
      · rw [Prod.mk.injEq] at heq
        obtain ⟨rfl, rfl⟩ := heq
        exact absurd (by simp [hlk]) h0
      · obtain ⟨e, he⟩ := ih selfName nets tgt l hm' hlk
        cases l0 with
        | none => exact ⟨e, by unfold parseNetLinks; rw [if_neg h0, he]⟩
        | some lo =>
          rcases hp : lo.Parse with ⟨lo', perr⟩
          have hred : parseNetLinks selfName nets ((t0, some lo) :: rest) =
              (match lo.Parse with
               | (_, some e) => Except.error e
               | (lo2, none) =>
                 match parseNetLinks selfName nets rest with
                 | Except.error e => Except.error e
                 | Except.ok rest2 => Except.ok ((t0, some lo2) :: rest2)) := by
            conv_lhs => unfold parseNetLinks
            rw [if_neg h0]
          cases perr with
          | some pe => exact ⟨pe, by rw [hred, hp]⟩
          | none => exact ⟨e, by rw [hred, hp, he]⟩

theorem checkNetLinks_badlink_error :
    ∀ (iter : List (String × Network)) (nets : List (String × Network))
      (name : String) (n : Network) (tgt : String) (l : Option LinkOpts),
    (name, n) ∈ iter → (tgt, l) ∈ n.Links → lookupKey nets tgt = none →
    ∃ e, checkNetLinks nets iter = Except.error e := by
  intro iter
  induction iter with
  | nil =>
    intro nets name n tgt l hmem _ _
    exact absurd hmem (List.not_mem_nil _)
  | cons hd rest ih =>
    intro nets name n tgt l hmem hl hlk
    rcases hd with ⟨nm, m⟩
    rcases List.mem_cons.mp hmem with heq | hm'
    · rw [Prod.mk.injEq] at heq
      obtain ⟨rfl, rfl⟩ := heq
      obtain ⟨e, he⟩ := parseNetLinks_error_of_missing n.Links name nets tgt l hl hlk
      exact ⟨e, by unfold checkNetLinks; rw [he]⟩
    · cases hpl : parseNetLinks nm nets m.Links with
      | error pe => exact ⟨pe, by unfold checkNetLinks; rw [hpl]⟩
      | ok links2 =>
        obtain ⟨e, he⟩ := ih nets name n tgt l hm' hl hlk
        exact ⟨e, by unfold checkNetLinks; rw [hpl, he]⟩

theorem Create_eq_error (cfg : Config) (w : Wst) (e : String)
    (hb : buildNets cfg.Networks [] = Except.error e) :
    cfg.Create w = (CreateRes.ret none (some e), w) := by
  unfold Config.Create
  rw [hb]

theorem Create_eq_phaseB (cfg : Config) (w : Wst) (nets : List (String × Network))
    (hb : buildNets cfg.Networks [] = Except.ok nets) :
    cfg.Create w = createPhaseB cfg nets w := by
  unfold Config.Create
  rw [hb]

theorem phaseB_eq_error (cfg : Config) (nets : List (String × Network)) (w : Wst)
    (e : String) (hp : checkPeers nets cfg.Peers [] = Except.error e) :
    createPhaseB cfg nets w = (CreateRes.ret none (some e), w) := by
  unfold createPhaseB
  rw [hp]

theorem phaseB_eq_phaseC (cfg : Config) (nets : List (String × Network)) (w : Wst)
    (peers : List Peer) (hp : checkPeers nets cfg.Peers [] = Except.ok peers) :
    createPhaseB cfg nets w = createPhaseC cfg nets peers w := by
  unfold createPhaseB
  rw [hp]

theorem phaseC_eq_error (cfg : Config) (nets : List (String × Network))
    (peers : List Peer) (w : Wst) (e : String)
    (hn : checkNetLinks nets nets = Except.error e) :
    createPhaseC cfg nets peers w = (CreateRes.ret none (some e), w) := by
  unfold createPhaseC
  rw [hn]

/-- Claim C4: a config with duplicate subnet names, duplicate peer names, a
peer link to a nonexistent subnet, or a subnet link to a nonexistent subnet
makes `Create` return a validation error with the oracle state untouched
(zero capability calls, nothing logged, no ledger); and on the four
canonical single-violation configs the error names the offending entity. -/
theorem c4_validation_before_any_capability_call :
    (∀ (cfg : Config) (w : Wst), ¬ (networkNames cfg).Nodup →
        ∃ e, cfg.Create w = (CreateRes.ret none (some e), w))
    ∧ (∀ (cfg : Config) (w : Wst), ¬ (peerNames cfg).Nodup →
        ∃ e, cfg.Create w = (CreateRes.ret none (some e), w))
    ∧ (∀ (cfg : Config) (w : Wst) (p : Peer) (tgt : String) (l : Option LinkOpts),
        p ∈ cfg.Peers → (tgt, l) ∈ p.Links → tgt ∉ networkNames cfg →
        ∃ e, cfg.Create w = (CreateRes.ret none (some e), w))
    ∧ (∀ (cfg : Config) (w : Wst) (n : Network) (tgt : String) (l : Option LinkOpts),
        n ∈ cfg.Networks → (tgt, l) ∈ n.Links → tgt ∉ networkNames cfg →
        ∃ e, cfg.Create w = (CreateRes.ret none (some e), w))
    ∧ (∀ w : Wst, dupNetConfig.Create w =
        (CreateRes.ret none (some "duplicate network name: a"), w))
    ∧ (∀ w : Wst, dupPeerConfig.Create w =
        (CreateRes.ret none (some "duplicate peer name: p"), w))
    ∧ (∀ w : Wst, badPeerLinkConfig.Create w =
        (CreateRes.ret none (some "peer p has link to non-existent network \"X\""), w))
    ∧ (∀ w : Wst, badNetLinkConfig.Create w =
        (CreateRes.ret none (some "network a has link to non-existent network X"), w)) := by
  refine ⟨?_, ?_, ?_, ?_, fun w => rfl, fun w => rfl, fun w => rfl, fun w => rfl⟩
  · intro cfg w h
    obtain ⟨e, he⟩ := buildNets_dup_error cfg.Networks []
      (Or.inr (by simpa [networkNames] using h))
    exact ⟨e, Create_eq_error cfg w e he⟩
  · intro cfg w h
    cases hb : buildNets cfg.Networks [] with
    | error e => exact ⟨e, Create_eq_error cfg w e hb⟩
    | ok nets =>
      obtain ⟨e, he⟩ := checkPeers_dup_error cfg.Peers nets []
        (Or.inl (by simpa [peerNames] using h))
      exact ⟨e, by rw [Create_eq_phaseB cfg w nets hb, phaseB_eq_error cfg nets w e he]⟩
  · intro cfg w p tgt l hp hl hmem
    cases hb : buildNets cfg.Networks [] with
    | error e => exact ⟨e, Create_eq_error cfg w e hb⟩
    | ok nets =>
      have hkeys : nets.map Prod.fst = networkNames cfg := by
        have := buildNets_keys cfg.Networks [] nets hb
        simpa [networkNames] using this
      have hlk : lookupKey nets tgt = none := by
        rw [lookupKey_eq_none_iff, hkeys]
        exact hmem
      obtain ⟨e, he⟩ := checkPeers_badlink_error cfg.Peers nets [] p tgt l hp hl hlk
      exact ⟨e, by rw [Create_eq_phaseB cfg w nets hb, phaseB_eq_error cfg nets w e he]⟩
  · intro cfg w n tgt l hn hl hmem
    cases hb : buildNets cfg.Networks [] with
    | error e => exact ⟨e, Create_eq_error cfg w e hb⟩
    | ok nets =>
      have hkeys : nets.map Prod.fst = networkNames cfg := by
        have := buildNets_keys cfg.Networks [] nets hb
        simpa [networkNames] using this
      have hlk : lookupKey nets tgt = none := by
        rw [lookupKey_eq_none_iff, hkeys]
        exact hmem
      cases hp : checkPeers nets cfg.Peers [] with
      | error e =>
        exact ⟨e, by rw [Create_eq_phaseB cfg w nets hb, phaseB_eq_error cfg nets w e hp]⟩
      | ok peers =>
        obtain ⟨bo, hmem2⟩ := buildNets_mem cfg.Networks [] nets hb n hn
        obtain ⟨e, he⟩ := checkNetLinks_badlink_error nets nets n.Name
          { n with ipnet := some bo } tgt l hmem2 (by simpa using hl) hlk
        exact ⟨e, by rw [Create_eq_phaseB cfg w nets hb,
          phaseB_eq_phaseC cfg nets w peers hp, phaseC_eq_error cfg nets peers w e he]⟩

/-- Claim C4 witness: the duplicate-subnet case at a concrete config and
oracle. -/
theorem c4_witness :
    ∃ e, Config.Create dupNetConfig ⟨[], []⟩ =
      (CreateRes.ret none (some e), ⟨[], []⟩) :=
  c4_validation_before_any_capability_call.1 dupNetConfig ⟨[], []⟩ (by decide)

end Netdef
